import Mathlib

set_option maxRecDepth 4000

/- ===================================================================
   Shallow embedding of the MinecraftAIChatService planner
   (Go package `planner`, `llm`, `util`, `models`).

   Go strings are modelled as rune lists (`Str := List Char`); Go
   `int`/`int64` as `Int`; Go `float64` settings as `ℚ`.
   =================================================================== -/

abbrev Str := List Char

def str (s : String) : Str := s.data

/-- Model of Go `strings.ToLower` restricted to the characters this code
base manipulates: ASCII letters and the Polish diacritics that
`util.NormalizeText` folds.  Other characters are left unchanged. -/
def toLowerChar (c : Char) : Char :=
  if 65 ≤ c.toNat ∧ c.toNat ≤ 90 then Char.ofNat (c.toNat + 32)
  else if c = 'Ł' then 'ł'
  else if c = 'Ą' then 'ą'
  else if c = 'Ę' then 'ę'
  else if c = 'Ś' then 'ś'
  else if c = 'Ć' then 'ć'
  else if c = 'Ń' then 'ń'
  else if c = 'Ó' then 'ó'
  else if c = 'Ż' then 'ż'
  else if c = 'Ź' then 'ź'
  else c

def lowerStr (s : Str) : Str := s.map toLowerChar

def isSpc (c : Char) : Bool := c == ' ' || c == '\t' || c == '\n' || c == '\r'

/-- Model of Go `strings.TrimSpace` (drop whitespace at both ends). -/
def trimSpace (s : Str) : Str :=
  List.rdropWhile isSpc (s.dropWhile isSpc)

/-- `hasPfx pat s` models Go `strings.HasPrefix(s, pat)`. -/
def hasPfx : Str → Str → Bool
  | [], _ => true
  | _ :: _, [] => false
  | p :: ps, c :: cs => p == c && hasPfx ps cs

/-- `containsSub s pat` models Go `strings.Contains(s, pat)`. -/
def containsSub : Str → Str → Bool
  | [], pat => pat.isEmpty
  | c :: rest, pat => hasPfx pat (c :: rest) || containsSub rest pat

/-- `findSubIdx s pat` models Go `strings.Index(s, pat)` (rune index). -/
def findSubIdx : Str → Str → Option Nat
  | [], pat => if pat.isEmpty then some 0 else none
  | c :: rest, pat =>
    if hasPfx pat (c :: rest) then some 0
    else (findSubIdx rest pat).map (· + 1)

/-- Model of Go `strings.EqualFold` (simple case folding, which on the
characters used here agrees with lower-casing both sides). -/
def equalFold (a b : Str) : Bool := lowerStr a == lowerStr b

/-- Split on a character predicate, keeping empty chunks
(generalises Go `strings.Split` and underlies `strings.Fields`). -/
def splitP (p : Char → Bool) : Str → List Str
  | [] => [[]]
  | c :: rest =>
    if p c then [] :: splitP p rest
    else
      match splitP p rest with
      | [] => [[c]]
      | l :: ls => (c :: l) :: ls

/-- Model of Go `strings.Fields`. -/
def fieldsGo (s : Str) : List Str := (splitP isSpc s).filter (fun w => !w.isEmpty)

/-- Model of Go `strings.Join`. -/
def joinSep (sep : Str) : List Str → Str
  | [] => []
  | [x] => x
  | x :: rest => x ++ sep ++ joinSep sep rest

/- ===================================================================
   Data model (internal/models/models.go)
   =================================================================== -/

structure ServerContext where
  serverID : Str
  mode : Str
  onlinePlayers : Int
deriving DecidableEq, Inhabited

structure Persona where
  language : Str
  tone : Str
  styleTags : List Str
  avoidTopics : List Str
  knowledgeLevel : Str
deriving DecidableEq, Inhabited

structure BotProfile where
  botID : Str
  name : Str
  online : Bool
  cooldownMS : Int
  persona : Persona
deriving DecidableEq, Inhabited

structure ChatMessage where
  timestampMS : Int
  sender : Str
  senderType : Str
  message : Str
deriving DecidableEq, Inhabited

structure PlanSettings where
  maxActions : Int
  minDelayMS : Int
  maxDelayMS : Int
  globalSilenceChance : ℚ
  replyChance : ℚ
deriving DecidableEq, Inhabited

structure PlanRequest where
  requestID : Str
  server : ServerContext
  tick : Int
  timeMS : Int
  bots : List BotProfile
  chat : List ChatMessage
  settings : PlanSettings
deriving DecidableEq, Inhabited

structure PlannedAction where
  botID : Str
  sendAfterMS : Int
  message : Str
  visibility : Str
  reason : Str
deriving DecidableEq, Inhabited

structure PlanDebug where
  chosenStrategy : Str
  suppressedReplies : Nat
deriving DecidableEq, Inhabited

structure PlanResponse where
  requestID : Str
  actions : List PlannedAction
  debug : PlanDebug
deriving DecidableEq, Inhabited

/- ===================================================================
   Topics (internal/planner/topics.go and the detectTopics file)
   =================================================================== -/

def topicGreeting : Str := str "greeting"
def topicPVPInvite : Str := str "pvp_invite"
def topicEvent : Str := str "event"
def topicHelp : Str := str "help"
def topicToxic : Str := str "toxic"

def allTopics : List Str :=
  [topicGreeting, topicPVPInvite, topicEvent, topicHelp, topicToxic]

def greetingKeywords : List Str :=
  [str "siema", str "hej", str "czesc", str "elo", str "yo", str "witam"]
def pvpKeywords : List Str :=
  [str "kto pvp", str "pvp", str "klepac", str "1v1", str "duel", str "pojedynek"]
def eventKeywords : List Str :=
  [str "event", str "start", str "drop", str "turniej", str "boss"]
def helpKeywords : List Str :=
  [str "jak", str "gdzie", str "co robic", str "pomoc", str "help"]
def toxicKeywords : List Str :=
  [str "kurwa", str "chuj", str "chujowy", str "jebac", str "idiota"]

/-- Model of `util.NormalizeText`: lowercase then fold Polish diacritics. -/
def normalizeText (s : Str) : Str :=
  (lowerStr s).map fun c =>
    if c = 'ł' then 'l'
    else if c = 'ą' then 'a'
    else if c = 'ę' then 'e'
    else if c = 'ś' then 's'
    else if c = 'ć' then 'c'
    else if c = 'ń' then 'n'
    else if c = 'ó' then 'o'
    else if c = 'ż' then 'z'
    else if c = 'ź' then 'z'
    else c

/-- Model of `util.ContainsAny`. -/
def containsAny (s : Str) (keywords : List Str) : Bool :=
  keywords.any fun k => containsSub s k

/-- The per-message `switch` inside `detectTopics`: fixed precedence
Toxic > Event > PVPInvite > Help > Greeting, at most one topic per message. -/
def classifyMessage (message : Str) : Option Str :=
  let text := normalizeText message
  if containsAny text toxicKeywords then some topicToxic
  else if containsAny text eventKeywords then some topicEvent
  else if containsAny text pvpKeywords then some topicPVPInvite
  else if containsAny text helpKeywords then some topicHelp
  else if containsAny text greetingKeywords then some topicGreeting
  else none

def maxRecentMessages : Nat := 10

/-- The last `n` entries of a list (Go slice `l[len(l)-n:]`, or all of `l`
when it is shorter than `n`). -/
def lastN (n : Nat) (l : List ChatMessage) : List ChatMessage :=
  l.drop (l.length - n)

/-- `topicCounts` of `detectTopics` as a counting function over the window. -/
def countOf (window : List ChatMessage) (t : Str) : Nat :=
  window.countP fun m => classifyMessage m.message == some t

/-- The key set of the Go map `topicCounts`, listed in canonical order.
Go's `for topic := range topicCounts` yields exactly these keys, once each,
in an order the runtime does not fix (map iteration order is randomized);
that order is the `enum` parameter of `detectTopicsWith`. -/
def topicKeys (window : List ChatMessage) : List Str :=
  allTopics.filter fun t => decide (0 < countOf window t)

/-- An admissible map-enumeration order: any permutation of the key set. -/
@[reducible] def validEnum (enum : List Str) (msgs : List ChatMessage) : Prop :=
  List.Perm enum (topicKeys (lastN maxRecentMessages msgs))

/-- Stable insertion (descending by `c`): an element is placed before the
first element of strictly smaller or equal-to-it count it dominates, i.e.
before the first `y` with `c y ≤ c x`.  Together with `sortTopicsDesc`
this is the unique stable descending sort, which is what
`sort.SliceStable(ordered, counts[i] > counts[j])` computes. -/
def insertDesc (c : Str → Nat) (x : Str) : List Str → List Str
  | [] => [x]
  | y :: ys => if c y ≤ c x then x :: y :: ys else y :: insertDesc c x ys

def sortTopicsDesc (c : Str → Nat) : List Str → List Str
  | [] => []
  | x :: xs => insertDesc c x (sortTopicsDesc c xs)

/-- Model of `detectTopics`, parameterized by the runtime's map-enumeration
order `enum` (see `topicKeys`).  For any `enum` satisfying `validEnum` this
reproduces one possible return value of the Go function. -/
def detectTopicsWith (enum : List Str) (messages : List ChatMessage) : List Str :=
  if messages.isEmpty then []
  else sortTopicsDesc (countOf (lastN maxRecentMessages messages)) enum

example : classifyMessage (str "siema") = some topicGreeting := by decide
example : classifyMessage (str "hej kto pvp?") = some topicPVPInvite := by decide
example : classifyMessage (str "kurwa event") = some topicToxic := by decide
example :
    detectTopicsWith [topicEvent, topicGreeting]
      [⟨1, str "p", str "PLAYER", str "siema"⟩,
       ⟨2, str "p", str "PLAYER", str "event"⟩] = [topicEvent, topicGreeting] := by
  decide

/- ===================================================================
   Deterministic RNG (util.NewSeededRand consumers)

   The Go planner draws from a `*rand.Rand` seeded per request.  No claim
   depends on the concrete pseudo-random values, so the source is modelled
   as two abstract draw streams consumed in the exact order the Go code
   draws: `floats` for `Float64` and `nats` for `Intn`/`Int63n`/`Perm`.
   =================================================================== -/

structure Rng where
  floats : Nat → ℚ
  nats : Nat → Nat
  fi : Nat
  ni : Nat

def Rng.float64 (r : Rng) : ℚ × Rng :=
  (r.floats r.fi, { r with fi := r.fi + 1 })

/-- `rand.Intn n` for `n > 0` (all call sites guard positivity). -/
def Rng.intn (r : Rng) (n : Nat) : Nat × Rng :=
  (r.nats r.ni % n, { r with ni := r.ni + 1 })

def Rng.int63n (r : Rng) (n : Int) : Int × Rng :=
  let (v, rr) := r.intn n.toNat
  ((v : Int), rr)

/-- One iteration of Go `rand.Perm`: `j := Intn(i+1); m[i] = m[j]; m[j] = i`
(reading slot `i` of the zero-initialized slice before it is first written). -/
def permStep (acc : Array Nat × Rng) (i : Nat) : Array Nat × Rng :=
  let (arr, r) := acc
  let (j, rr) := r.intn (i + 1)
  let v := if j < arr.size then arr.getD j 0 else 0
  ((arr.push v).setD j i, rr)

def Rng.perm (r : Rng) (n : Nat) : List Nat × Rng :=
  let p := (List.range n).foldl permStep (#[], r)
  (p.1.toList, p.2)

/- ===================================================================
   Anti-spam memory (planner.Planner.memory with shouldSuppress/remember)

   The nested Go maps `memory[serverID][botID].LastSentByTopic[topic]`
   flatten to one lookup function. -/

def Mem : Type := Str → Str → Str → Option Int

def emptyMem : Mem := fun _ _ _ => none

def topicCooldownMS : Int := 15000

def orDefaultServer (s : Str) : Str := if s = [] then str "default" else s

/-- Model of `(*Planner).shouldSuppress`. -/
def shouldSuppress (mem : Mem) (serverID botID topic : Str) (nowMS : Int) : Bool :=
  if botID = [] then true
  else
    match mem (orDefaultServer serverID) botID topic with
    | none => false
    | some lastSent => decide (nowMS - lastSent < topicCooldownMS)

/-- Model of `(*Planner).remember`. -/
def rememberMem (mem : Mem) (serverID botID topic : Str) (nowMS : Int) : Mem :=
  fun s b t =>
    if s = orDefaultServer serverID ∧ b = botID ∧ t = topic then some nowMS
    else mem s b t

/- ===================================================================
   Bot filtering (planner.go: filterAvailableBots, filterSelfReplyBots)
   =================================================================== -/

def filterAvailableBots (bots : List BotProfile) : List BotProfile :=
  bots.filter fun b => b.online && decide (b.cooldownMS ≤ 0)

/-- The scan loop of `latestChatMessage` (the Go loop updates the running
best on `>=`, so later entries win timestamp ties). -/
def latestFold : List ChatMessage → ChatMessage → ChatMessage
  | [], best => best
  | x :: rest, best =>
    latestFold rest (if best.timestampMS ≤ x.timestampMS then x else best)

/-- Model of `latestChatMessage`: entry of maximal timestamp, later
entries winning ties — not the last list position. -/
def latestChatMessage : List ChatMessage → Option ChatMessage
  | [] => none
  | m :: rest => some (latestFold rest m)

def isSameSender (bot : BotProfile) (message : ChatMessage) : Bool :=
  (!(bot.botID == []) && equalFold message.sender bot.botID) ||
  (!(bot.name == []) && equalFold message.sender bot.name)

def filterSelfReplyBots (req : PlanRequest) (bots : List BotProfile) : List BotProfile :=
  match latestChatMessage req.chat with
  | none => bots
  | some last =>
    if equalFold last.senderType (str "BOT") then
      bots.filter fun b => !isSameSender b last
    else bots

/-- The filtered-available set `Plan` works with. -/
def filteredBots (req : PlanRequest) : List BotProfile :=
  filterSelfReplyBots req (filterAvailableBots req.bots)

/- ===================================================================
   Settings normalization (planner.go: normalizeSettings)
   =================================================================== -/

/-- The Go literal `0.6` (reply-chance default), as a normalized rational. -/
def replyChanceDefault : ℚ := ⟨3, 5, by decide, by decide⟩

def normalizeSettings (settings : PlanSettings) : PlanSettings :=
  let s1 := if settings.maxActions ≤ 0 then { settings with maxActions := 2 } else settings
  let s2 := if s1.minDelayMS ≤ 0 then { s1 with minDelayMS := 800 } else s1
  let s3 := if s2.maxDelayMS ≤ s2.minDelayMS then { s2 with maxDelayMS := s2.minDelayMS + 1200 } else s2
  let s4 := if s3.replyChance ≤ 0 then { s3 with replyChance := replyChanceDefault } else s3
  let s5 := if s4.globalSilenceChance < 0 then { s4 with globalSilenceChance := 0 } else s4
  if s5.globalSilenceChance > 1 then { s5 with globalSilenceChance := 1 } else s5

/- ===================================================================
   Heuristic response generation (the generateResponse file)
   =================================================================== -/

/-- Modelled from the spec: the per-topic heuristic template tables
(`greetingTemplates`, `pvpNeutralTemplates`, `eventTemplates`,
`helpTemplates`, `smallTalkTemplates`, `newbieAddOns`, `friendlyEmojis`)
are referenced by `generateResponse` but their defining file is not
present under src/.  Spec §4.4 requires a nonempty random-template table
per topic, a neutral/deflecting PvP table, newbie prefixes and friendly
emojis; representative nonempty tables are used. -/
def greetingTemplates : List Str := [str "siema siema", str "hejka", str "elo elo"]

/-- Modelled from the spec: see `greetingTemplates`. -/
def pvpNeutralTemplates : List Str := [str "moze pozniej", str "dzis odpuszczam pvp"]

/-- Modelled from the spec: see `greetingTemplates`. -/
def eventTemplates : List Str := [str "o, event!", str "lecimy na event"]

/-- Modelled from the spec: see `greetingTemplates`. -/
def helpTemplates : List Str := [str "sprawdz spawn", str "zapytaj na forum"]

/-- Modelled from the spec: see `greetingTemplates`. -/
def smallTalkTemplates : List Str :=
  [str "spokojnie dzisiaj na serwerze prawda", str "ktos kopie dzisiaj"]

/-- Modelled from the spec: see `greetingTemplates`. -/
def newbieAddOns : List Str := [str "dopiero ogarniam"]

/-- Modelled from the spec: see `greetingTemplates`. -/
def friendlyEmojis : List Str := [str ":)", str ":D"]

def shouldAvoidTopic (topic : Str) (avoid : List Str) : Bool :=
  if topic = [] then false
  else
    avoid.any fun item =>
      equalFold item topic ||
      (containsSub (lowerStr item) (str "pvp") && topic == topicPVPInvite) ||
      (containsSub (lowerStr item) (str "event") && topic == topicEvent)

def pickTemplate (templates : List Str) (rng : Rng) : Str × Rng :=
  if templates.isEmpty then ([], rng)
  else
    let (i, rr) := rng.intn templates.length
    (templates.getD i [], rr)

def prefixNewbie (level : Str) (rng : Rng) (message : Str) : Str × Rng :=
  if level ≠ str "newbie" ∨ message = [] then (message, rng)
  else
    let (p, rr) := pickTemplate newbieAddOns rng
    if hasPfx p message then (message, rr)
    else (p ++ str ", " ++ message, rr)

def emojiSuffix (tone : Str) (rng : Rng) : Str × Rng :=
  if tone = str "friendly" ∨ tone = str "casual" then
    let (e, rr) := pickTemplate friendlyEmojis rng
    (str " " ++ e, rr)
  else ([], rng)

def shorten (message : Str) : Str :=
  let parts := fieldsGo message
  if parts.length ≤ 3 then message else joinSep (str " ") (parts.take 3)

/-- Model of `generateResponse` (message, reason).  The draw order matches
Go's left-to-right evaluation: template pick, then newbie prefix, then
emoji suffix. -/
def generateResponse (topic : Str) (bot : BotProfile) (rng : Rng) : (Str × Str) × Rng :=
  if shouldAvoidTopic topic bot.persona.avoidTopics then (([], []), rng)
  else
    let tone := lowerStr bot.persona.tone
    let styleTags := joinSep (str ",") bot.persona.styleTags
    let knowledge := lowerStr bot.persona.knowledgeLevel
    if topic = topicGreeting then
      let (t, r1) := pickTemplate greetingTemplates rng
      let (m, r2) := prefixNewbie knowledge r1 t
      let (e, r3) := emojiSuffix tone r2
      ((m ++ e, str "greeting"), r3)
    else if topic = topicPVPInvite then
      let (t, r1) := pickTemplate pvpNeutralTemplates rng
      let (e, r2) := emojiSuffix tone r1
      ((t ++ e, str "avoid_real_pvp"), r2)
    else if topic = topicEvent then
      let (t, r1) := pickTemplate eventTemplates rng
      ((t, str "react_to_event"), r1)
    else if topic = topicHelp then
      let (t, r1) := pickTemplate helpTemplates rng
      let (m, r2) := prefixNewbie knowledge r1 t
      ((m, str "helpful_hint"), r2)
    else if topic = [] then
      let (t, r1) := pickTemplate smallTalkTemplates rng
      let t2 := if containsSub styleTags (str "short") then shorten t else t
      let (m, r2) := prefixNewbie knowledge r1 t2
      let (e, r3) := emojiSuffix tone r2
      ((m ++ e, str "small_talk"), r3)
    else (([], []), rng)

/- ===================================================================
   Delegation (internal/planner/llm.go)
   =================================================================== -/

structure LLMRequest where
  server : ServerContext
  bot : BotProfile
  topic : Str
  recentChat : List ChatMessage

/-- Capability-polymorphic generator (`planner.LLMGenerator`): `generate`
returns `none` for a Go error and `some m` for `(m, nil)`. -/
structure Generator where
  enabled : Bool
  generate : LLMRequest → Option Str

def noopLLM : Generator := ⟨false, fun _ => none⟩

/-- Model of `recentChat(messages, limit)`. -/
def recentChat (messages : List ChatMessage) (limit : Int) : List ChatMessage :=
  if limit ≤ 0 ∨ messages.isEmpty then []
  else if (messages.length : Int) ≤ limit then messages
  else lastN limit.toNat messages

/-- Model of `(*Planner).generateMessage`: result is
(message, reason, llmAttempted, llmUsed). -/
def generateMessage (g : Generator) (req : PlanRequest) (topic : Str) (bot : BotProfile)
    (rng : Rng) : (Str × Str × Bool × Bool) × Rng :=
  if shouldAvoidTopic topic bot.persona.avoidTopics then (([], [], false, false), rng)
  else if g.enabled then
    match g.generate ⟨req.server, bot, topic, recentChat req.chat 6⟩ with
    | some m =>
      if m ≠ [] then ((m, str "llm", true, true), rng)
      else
        let ((hm, hr), rr) := generateResponse topic bot rng
        ((hm, hr, true, false), rr)
    | none =>
      let ((hm, hr), rr) := generateResponse topic bot rng
      ((hm, hr, true, false), rr)
  else
    let ((hm, hr), rr) := generateResponse topic bot rng
    ((hm, hr, false, false), rr)

def strategyLabel (base : Str) (llmAttempted llmUsed : Bool) : Str :=
  if llmUsed then str "llm"
  else if llmAttempted then base ++ str "_fallback"
  else base

/- ===================================================================
   Plan assembly (planner.go: buildPlan, smallTalkPlan, Plan)
   =================================================================== -/

def containsTopic (topics : List Str) (target : Str) : Bool :=
  topics.any (· == target)

def randomDelay (settings : PlanSettings) (rng : Rng) : Int × Rng :=
  let span := settings.maxDelayMS - settings.minDelayMS
  if span ≤ 0 then (settings.minDelayMS, rng)
  else
    let (d, rr) := rng.int63n (span + 1)
    (settings.minDelayMS + d, rr)

def pickBots (bots : List BotProfile) (maxSel : Int) (rng : Rng) :
    List BotProfile × Rng :=
  if (bots.length : Int) ≤ maxSel then (bots, rng)
  else
    let (idxs, rr) := rng.perm bots.length
    ((idxs.take maxSel.toNat).map (fun i => bots.getD i default), rr)

/-- A planned action tagged with the topic it was generated for
(`topic`, empty for the small-talk branch) and the key it was remembered
under (`memTopic`, equal to `topic` except `"small_talk"` in the
small-talk branch), plus the producing bot. -/
structure TaggedAction where
  topic : Str
  memTopic : Str
  bot : BotProfile
  action : PlannedAction

structure BuildSt where
  tagged : List TaggedAction
  suppressed : Nat
  att : Bool
  used : Bool
  mem : Mem
  rng : Rng

/-- One inner-loop iteration of `buildPlan` for the pair (topic, bot).
Go's `break` once `len(actions) >= MaxActions` has no effect other than
skipping the remaining pairs, which the guard reproduces. -/
def buildStep (g : Generator) (req : PlanRequest) (settings : PlanSettings)
    (st : BuildSt) (pair : Str × BotProfile) : BuildSt :=
  let topic := pair.1
  let bot := pair.2
  if (st.tagged.length : Int) ≥ settings.maxActions then st
  else if shouldSuppress st.mem req.server.serverID bot.botID topic req.timeMS then
    { st with suppressed := st.suppressed + 1 }
  else
    let ((m, reason, a, u), rng1) := generateMessage g req topic bot st.rng
    let st1 := { st with rng := rng1, att := st.att || a, used := st.used || u }
    if m = [] then st1
    else
      let (delay, rng2) := randomDelay settings st1.rng
      { st1 with
        tagged := st1.tagged ++
          [⟨topic, topic, bot, ⟨bot.botID, delay, m, str "PUBLIC", reason⟩⟩],
        rng := rng2,
        mem := rememberMem st1.mem req.server.serverID bot.botID topic req.timeMS }

/-- The topic-major / bot-minor double loop of `buildPlan`. -/
def buildReplies (g : Generator) (req : PlanRequest) (settings : PlanSettings)
    (topics : List Str) (selected : List BotProfile) (st : BuildSt) : BuildSt :=
  (topics.flatMap fun t => selected.map fun b => (t, b)).foldl (buildStep g req settings) st

/-- One loop iteration of `smallTalkPlan` (no suppress check, remembers
under pseudo-topic "small_talk"). -/
def smallTalkStep (g : Generator) (req : PlanRequest) (settings : PlanSettings)
    (st : BuildSt) (bot : BotProfile) : BuildSt :=
  let ((m, reason, a, u), rng1) := generateMessage g req [] bot st.rng
  let st1 := { st with rng := rng1, att := st.att || a, used := st.used || u }
  if m = [] then st1
  else
    let (delay, rng2) := randomDelay settings st1.rng
    { st1 with
      tagged := st1.tagged ++
        [⟨[], str "small_talk", bot, ⟨bot.botID, delay, m, str "PUBLIC", reason⟩⟩],
      rng := rng2,
      mem := rememberMem st1.mem req.server.serverID bot.botID (str "small_talk") req.timeMS }

/-- Model of `(*Planner).buildPlan` (tagged actions, strategy, suppressed,
llmAttempted, llmUsed, memory, rng). -/
def buildPlanT (g : Generator) (req : PlanRequest) (topics : List Str)
    (bots : List BotProfile) (settings : PlanSettings) (mem : Mem) (rng : Rng) :
    List TaggedAction × Str × Nat × Bool × Bool × Mem × Rng :=
  if topics.isEmpty then
    let (u, rng1) := rng.float64
    if u < settings.globalSilenceChance then
      ([], str "silence", 1, false, false, mem, rng1)
    else
      let (selected, rng2) := pickBots bots 1 rng1
      let st := selected.foldl (smallTalkStep g req settings) ⟨[], 0, false, false, mem, rng2⟩
      (st.tagged, strategyLabel (str "small_talk") st.att st.used, 0, st.att, st.used, st.mem, st.rng)
  else if containsTopic topics topicToxic then
    ([], str "toxic_silence", bots.length, false, false, mem, rng)
  else
    let (u, rng1) := rng.float64
    if u > settings.replyChance then
      ([], str "reply_suppressed", 1, false, false, mem, rng1)
    else
      let (selected, rng2) := pickBots bots settings.maxActions rng1
      let st := buildReplies g req settings topics selected ⟨[], 0, false, false, mem, rng2⟩
      (st.tagged, strategyLabel (str "heuristics") st.att st.used, st.suppressed, st.att, st.used, st.mem, st.rng)

structure PlanOut where
  response : PlanResponse
  mem : Mem
  tagged : List TaggedAction
  att : Bool
  used : Bool

/-- Model of `(*Planner).Plan`, parameterized by the generator, the
planner's anti-spam memory, the map-enumeration order used by
`detectTopics` (see `topicKeys`), and the seeded RNG's draw streams. -/
def PlanTagged (g : Generator) (mem : Mem) (enum : List Str) (rng : Rng)
    (req : PlanRequest) : PlanOut :=
  let available := filteredBots req
  if available.isEmpty then
    ⟨⟨req.requestID, [], ⟨[], 0⟩⟩, mem, [], false, false⟩
  else
    let topics := detectTopicsWith enum req.chat
    let settings := normalizeSettings req.settings
    let out := buildPlanT g req topics available settings mem rng
    ⟨⟨req.requestID, out.1.map (·.action), ⟨out.2.1, out.2.2.1⟩⟩,
      out.2.2.2.2.2.1, out.1, out.2.2.2.1, out.2.2.2.2.1⟩

/-- The response a caller observes. -/
def Plan (g : Generator) (mem : Mem) (enum : List Str) (rng : Rng)
    (req : PlanRequest) : PlanResponse :=
  (PlanTagged g mem enum rng req).response

/- ===================================================================
   LLM output sanitization (internal/llm: normalizeLLMOutput et al.)
   =================================================================== -/

def silenceToken : Str := str "__SILENCE__"

def firstNonEmptyLine (output : Str) : Str :=
  ((((splitP (· == '\n') output).map trimSpace).find? fun l => !l.isEmpty)).getD []

/-- Model of `stripQuotes` (`ReplaceAll` of a single character by the
empty string is a filter). -/
def stripQuotes (value : Str) : Str :=
  value.filter fun c => !(c == '"' || c == '\'')

def botMarker : Str := str "(bot)"

/-- One pass of the `stripBotMarkers` loop body. -/
def removeMarkerAt (value : Str) (idx : Nat) : Str :=
  value.take idx ++ value.drop (idx + botMarker.length)

/-- The `for` loop of `stripBotMarkers`, with fuel: every iteration that
finds a marker shortens the string by 5 characters, so `value.length`
iterations always suffice to reach the `none` exit. -/
def stripMarkersAux : Nat → Str → Str
  | 0, value => value
  | fuel + 1, value =>
    match findSubIdx (lowerStr value) botMarker with
    | none => value
    | some idx => stripMarkersAux fuel (removeMarkerAt value idx)

def stripBotMarkers (value : Str) : Str := stripMarkersAux value.length value

def stripSelfSeps : List Str := [str ":", str "-", str " -", str " —", str "–"]

/-- Model of `stripBotPrefix` (leading self-name plus separator). -/
def stripSelfName (message botName : Str) : Str :=
  if botName = [] then message
  else
    let trimmed := trimSpace message
    let lower := lowerStr trimmed
    let lowerBot := lowerStr botName
    match stripSelfSeps.find? (fun sep => hasPfx (lowerBot ++ sep) lower) with
    | some sep =>
      let rest := trimSpace (trimmed.drop (lowerBot.length + sep.length))
      trimSpace (rest.dropWhile fun c => c == '-' || c == '—' || c == '–')
    | none => trimmed

def isForbiddenOutput (value botName : Str) : Bool :=
  containsSub value ['"'] || containsSub value ['\''] ||
  containsSub (lowerStr value) botMarker ||
  (!(botName == []) && hasPfx (lowerStr botName ++ [':']) (lowerStr (trimSpace value)))

def llmMaxRunes : Nat := 80

/-- Model of `normalizeLLMOutput`.  `truncateRunes(line, 80)` on the
long branch is `List.take 80`. -/
def normalizeLLMOutput (output botName : Str) : Str :=
  let line0 := firstNonEmptyLine output
  if line0 = [] then silenceToken
  else if equalFold (trimSpace line0) silenceToken then silenceToken
  else
    let line := trimSpace (stripSelfName (stripQuotes (stripBotMarkers line0)) botName)
    if line = [] then silenceToken
    else if line.length > llmMaxRunes then
      let line2 := trimSpace (line.take llmMaxRunes)
      if line2 = [] then silenceToken
      else if isForbiddenOutput line2 botName then silenceToken
      else line2
    else if isForbiddenOutput line botName then silenceToken
    else line

/-- The intermediate value `normalizeLLMOutput` feeds to
`isForbiddenOutput` when control reaches that check: the first non-empty
line after marker/quote/self-name stripping, trimming and truncation. -/
def normalizedCore (output botName : Str) : Str :=
  let line := trimSpace (stripSelfName (stripQuotes (stripBotMarkers (firstNonEmptyLine output))) botName)
  if line.length > llmMaxRunes then trimSpace (line.take llmMaxRunes) else line

/-- Tail of `Client.Generate`/`sanitizeResponse` on a successful raw
model output: trim, drop a leading echoed prompt, normalize. -/
def sanitizeResponse (prompt output botName : Str) : Str :=
  let response := trimSpace output
  let response2 := if hasPfx prompt response then response.drop prompt.length else response
  normalizeLLMOutput (trimSpace response2) botName

/-- `Client.Generate` returns an `llm returned empty response` error when
sanitization yields the empty string, otherwise the sanitized text. -/
def clientPostprocess (prompt raw botName : Str) : Option Str :=
  let r := sanitizeResponse prompt raw botName
  if r = [] then none else some r

example : normalizeLLMOutput (str "\nhej\nkolejna") (str "Kuba") = str "hej" := by decide
example : normalizeLLMOutput (str "__SILENCE__\nignored") (str "Kuba") = silenceToken := by decide
example : normalizeLLMOutput (str "\"Kuba: siema\"") (str "Kuba") = str "siema" := by decide
example : normalizeLLMOutput (str "(BOT) hejka") (str "Kuba") = str "hejka" := by decide
example :
    normalizeLLMOutput (List.replicate 90 'a') (str "Kuba") = List.replicate 80 'a' := by decide
example : normalizeLLMOutput (str "Kuba: \"\"") (str "Kuba") = silenceToken := by decide

/- ===================================================================
   Basic lemmas about the string primitives
   =================================================================== -/

lemma dropWhile_of_rdropWhile_fixed (p : Char → Bool) (l : Str)
    (h : l.dropWhile p = l) : (l.rdropWhile p).dropWhile p = l.rdropWhile p := by
  obtain ⟨rest, hy⟩ := List.rdropWhile_prefix p l
  cases hrd : l.rdropWhile p with
  | nil => simp
  | cons a t =>
    rw [hrd] at hy
    have hl : l = a :: (t ++ rest) := by rw [← hy]; simp
    have hpa : ¬ p a := by
      intro hpa
      rw [hl, List.dropWhile_cons, if_pos hpa] at h
      have hlen : (List.dropWhile p (t ++ rest)).length ≤ (t ++ rest).length :=
        (List.dropWhile_suffix p).length_le
      have hcg := congrArg List.length h
      rw [List.length_cons] at hcg
      omega
    rw [List.dropWhile_cons, if_neg hpa]

lemma trimSpace_idem (s : Str) : trimSpace (trimSpace s) = trimSpace s := by
  unfold trimSpace
  rw [dropWhile_of_rdropWhile_fixed isSpc (s.dropWhile isSpc)
    (List.dropWhile_idempotent isSpc s)]
  exact List.rdropWhile_idempotent isSpc (s.dropWhile isSpc)

lemma trimSpace_length_le (s : Str) : (trimSpace s).length ≤ s.length := by
  unfold trimSpace
  have h1 : (List.rdropWhile isSpc (s.dropWhile isSpc)).length ≤ (s.dropWhile isSpc).length :=
    (List.rdropWhile_prefix isSpc (s.dropWhile isSpc)).length_le
  have h2 : (s.dropWhile isSpc).length ≤ s.length := (List.dropWhile_suffix isSpc).length_le
  omega

lemma forbidden_false_parts (v botName : Str)
    (h : isForbiddenOutput v botName = false) :
    containsSub v ['"'] = false ∧ containsSub v ['\''] = false ∧
    containsSub (lowerStr v) botMarker = false ∧
    (botName = [] ∨ hasPfx (lowerStr botName ++ [':']) (lowerStr (trimSpace v)) = false) := by
  unfold isForbiddenOutput at h
  simp only [Bool.or_eq_false_iff, Bool.and_eq_false_iff, Bool.not_eq_true,
    Bool.not_eq_false] at h
  obtain ⟨⟨⟨h1, h2⟩, h3⟩, h4⟩ := h
  refine ⟨h1, h2, h3, ?_⟩
  rcases h4 with h4 | h4
  · left
    simpa using h4
  · right
    exact h4

/-- C10: for every raw output and bot name, `normalizeLLMOutput` returns either
exactly the sentinel `__SILENCE__` or a non-empty string of at most 80 runes
(runes, so multi-byte characters are never split) that contains no double- or
single-quote character, no `(bot)` marker in any letter case, and does not
start, case-insensitively, with the bot name followed by `:`. -/
theorem c10_normalize_output_shape (output botName : Str) :
    normalizeLLMOutput output botName = silenceToken ∨
    (normalizeLLMOutput output botName ≠ [] ∧
     (normalizeLLMOutput output botName).length ≤ llmMaxRunes ∧
     containsSub (normalizeLLMOutput output botName) ['"'] = false ∧
     containsSub (normalizeLLMOutput output botName) ['\''] = false ∧
     containsSub (lowerStr (normalizeLLMOutput output botName)) botMarker = false ∧
     (botName = [] ∨
      hasPfx (lowerStr botName ++ [':'])
        (lowerStr (normalizeLLMOutput output botName)) = false)) := by
  by_cases h0 : firstNonEmptyLine output = []
  · left
    simp [normalizeLLMOutput, h0]
  · by_cases h1 : equalFold (trimSpace (firstNonEmptyLine output)) silenceToken = true
    · left
      simp [normalizeLLMOutput, h0, h1]
    · set L := trimSpace
        (stripSelfName (stripQuotes (stripBotMarkers (firstNonEmptyLine output))) botName)
        with hLdef
      have hLfix : trimSpace L = L := by
        rw [hLdef]
        exact trimSpace_idem _
      by_cases h2 : L = []
      · left
        simp [normalizeLLMOutput, h0, h1, ← hLdef, h2]
      · by_cases h3 : L.length > llmMaxRunes
        · set L2 := trimSpace (L.take llmMaxRunes) with hL2def
          have hL2fix : trimSpace L2 = L2 := by
            rw [hL2def]
            exact trimSpace_idem _
          by_cases h4 : L2 = []
          · left
            simp [normalizeLLMOutput, h0, h1, ← hLdef, h2, h3, ← hL2def, h4]
          · by_cases h5 : isForbiddenOutput L2 botName = true
            · left
              simp [normalizeLLMOutput, h0, h1, ← hLdef, h2, h3, ← hL2def, h4, h5]
            · have hres : normalizeLLMOutput output botName = L2 := by
                simp [normalizeLLMOutput, h0, h1, ← hLdef, h2, h3, ← hL2def, h4, h5]
              right
              rw [hres]
              have hparts := forbidden_false_parts L2 botName (by simpa using h5)
              rw [hL2fix] at hparts
              refine ⟨h4, ?_, hparts.1, hparts.2.1, hparts.2.2.1, hparts.2.2.2⟩
              have htake : (L.take llmMaxRunes).length ≤ llmMaxRunes := by
                simp [List.length_take]
              calc L2.length ≤ (L.take llmMaxRunes).length := by
                    rw [hL2def]; exact trimSpace_length_le _
                _ ≤ llmMaxRunes := htake
        · by_cases h5 : isForbiddenOutput L botName = true
          · left
            simp [normalizeLLMOutput, h0, h1, ← hLdef, h2, h3, h5]
          · have hres : normalizeLLMOutput output botName = L := by
              simp [normalizeLLMOutput, h0, h1, ← hLdef, h2, h3, h5]
            right
            rw [hres]
            have hparts := forbidden_false_parts L botName (by simpa using h5)
            rw [hLfix] at hparts
            exact ⟨h2, by omega, hparts.1, hparts.2.1, hparts.2.2.1, hparts.2.2.2⟩

/-- The claim's reading of C3: a prior emission recorded for the exact
(server-or-default, bot, topic) key strictly less than 15000 ms before
the given time. -/
def claimC3Prior (mem : Mem) (serverID botID topic : Str) (now : Int) : Prop :=
  ∃ last, mem (orDefaultServer serverID) botID topic = some last ∧
    last ≤ now ∧ now - last < topicCooldownMS

/-- C3 counterexample: with a completely empty memory and an empty bot id,
`shouldSuppress` returns true although no prior emission was ever recorded
for the key, so the claimed "if and only if" fails. -/
theorem c3_should_suppress_counterexample :
    shouldSuppress emptyMem (str "srv") [] topicGreeting 0 = true ∧
    ¬ claimC3Prior emptyMem (str "srv") [] topicGreeting 0 := by
  constructor
  · rfl
  · rintro ⟨last, hlast, -⟩
    simp [emptyMem] at hlast

/-- C3 (amended): `shouldSuppress` returns true iff the bot id is empty, or
the exact (server-or-default, bot, topic) key carries a recorded
last-emission time `last` with `now - last < 15000` (no requirement that
`last` precede `now`); in particular, for a nonempty bot id, an emission
remembered at time t is suppressed at t+14999 ms and not suppressed at
t+15000 ms. -/
theorem c3_should_suppress_amended (mem : Mem) (serverID botID topic : Str) (now : Int) :
    (shouldSuppress mem serverID botID topic now = true ↔
      (botID = [] ∨ ∃ last, mem (orDefaultServer serverID) botID topic = some last ∧
        now - last < topicCooldownMS)) ∧
    (botID ≠ [] → ∀ t : Int,
      shouldSuppress (rememberMem mem serverID botID topic t) serverID botID topic
        (t + 14999) = true ∧
      shouldSuppress (rememberMem mem serverID botID topic t) serverID botID topic
        (t + 15000) = false) := by
  constructor
  · unfold shouldSuppress
    by_cases hb : botID = []
    · simp [hb]
    · simp only [if_neg hb]
      cases hmem : mem (orDefaultServer serverID) botID topic with
      | none => simp [hb, hmem]
      | some last => simp [hb, hmem]
  · intro hb t
    have hlook : rememberMem mem serverID botID topic t
        (orDefaultServer serverID) botID topic = some t := by
      unfold rememberMem
      simp
    constructor
    · unfold shouldSuppress
      rw [if_neg hb, hlook]
      simp [topicCooldownMS]
    · unfold shouldSuppress
      rw [if_neg hb, hlook]
      simp [topicCooldownMS]

/-- C3 witness: the amended theorem applied at a concrete memory, key and
boundary times 19999/20000 after an emission remembered at 5000. -/
theorem c3_should_suppress_amended_witness :
    (shouldSuppress emptyMem (str "s1") (str "b1") topicGreeting 20000 = true ↔
      (str "b1" = ([] : Str) ∨
       ∃ last, emptyMem (orDefaultServer (str "s1")) (str "b1") topicGreeting = some last ∧
         (20000 : Int) - last < topicCooldownMS)) ∧
    shouldSuppress (rememberMem emptyMem (str "s1") (str "b1") topicGreeting 5000)
      (str "s1") (str "b1") topicGreeting 19999 = true ∧
    shouldSuppress (rememberMem emptyMem (str "s1") (str "b1") topicGreeting 5000)
      (str "s1") (str "b1") topicGreeting 20000 = false := by
  have h := c3_should_suppress_amended emptyMem (str "s1") (str "b1") topicGreeting 20000
  have hb := h.2 (by decide) 5000
  exact ⟨h.1, hb.1, hb.2⟩

lemma latestFold_spec (rest : List ChatMessage) (m : ChatMessage) :
    (latestFold rest m = m ∨ latestFold rest m ∈ rest) ∧
    m.timestampMS ≤ (latestFold rest m).timestampMS ∧
    ∀ x ∈ rest, x.timestampMS ≤ (latestFold rest m).timestampMS := by
  induction rest generalizing m with
  | nil => exact ⟨Or.inl rfl, le_refl _, by simp⟩
  | cons x rest ih =>
    by_cases hx : m.timestampMS ≤ x.timestampMS
    · have hr := ih x
      have hstep : latestFold (x :: rest) m = latestFold rest x := by
        show latestFold rest (if m.timestampMS ≤ x.timestampMS then x else m) = latestFold rest x
        rw [if_pos hx]
      rw [hstep]
      refine ⟨?_, le_trans hx hr.2.1, ?_⟩
      · rcases hr.1 with h | h
        · exact Or.inr (by simp [h])
        · exact Or.inr (by simp [h])
      · intro y hy
        rcases List.mem_cons.mp hy with rfl | hy
        · exact hr.2.1
        · exact hr.2.2 y hy
    · have hr := ih m
      have hstep : latestFold (x :: rest) m = latestFold rest m := by
        show latestFold rest (if m.timestampMS ≤ x.timestampMS then x else m) = latestFold rest m
        rw [if_neg hx]
      rw [hstep]
      refine ⟨?_, hr.2.1, ?_⟩
      · rcases hr.1 with h | h
        · exact Or.inl h
        · exact Or.inr (by simp [h])
      · intro y hy
        rcases List.mem_cons.mp hy with rfl | hy
        · exact le_trans (le_of_not_le hx) hr.2.1
        · exact hr.2.2 y hy

/-- The C5 claim's filter, as the claim states it: keep online bots with
cooldown ≤ 0 and drop any bot whose id or name equals (case-insensitively)
the sender of the maximal-timestamp message when its sender-type is BOT —
with no non-emptiness requirement on the id or the name. -/
def claimC5Filter (req : PlanRequest) : List BotProfile :=
  (req.bots.filter fun b => b.online && decide (b.cooldownMS ≤ 0)).filter fun b =>
    match latestChatMessage req.chat with
    | some last =>
      !(equalFold last.senderType (str "BOT") &&
        (equalFold b.botID last.sender || equalFold b.name last.sender))
    | none => true

def reqC5 : PlanRequest :=
  { requestID := str "r5"
    server := ⟨str "s", str "lobby", 1⟩
    tick := 0
    timeMS := 0
    bots := [⟨[], [], true, 0, ⟨[], [], [], [], []⟩⟩]
    chat := [⟨5, [], str "BOT", str "hej"⟩]
    settings := ⟨0, 0, 0, 0, 0⟩ }

/-- C5 counterexample: for a bot whose id and name are both empty and a
latest chat message from sender "" of type BOT, the claim excludes the
bot ("" equals "" case-insensitively) but the code keeps it, because
`isSameSender` requires a non-empty id or name. -/
theorem c5_filter_counterexample : filteredBots reqC5 ≠ claimC5Filter reqC5 := by
  decide

/-- Exclusion predicate actually implemented by `filterSelfReplyBots`. -/
def selfReplyExcluded (req : PlanRequest) (b : BotProfile) : Bool :=
  match latestChatMessage req.chat with
  | some last => equalFold last.senderType (str "BOT") && isSameSender b last
  | none => false

/-- C5 (amended): bot filtering keeps exactly the bots with online == true
and cooldown ≤ 0, excluding every bot whose non-empty id or non-empty name
equals, case-insensitively, the sender of the maximal-timestamp chat
message whenever that message's sender-type is "BOT"; and the message used
for the guard is indeed one of maximal timestamp, not the last position. -/
theorem c5_filter_amended :
    (∀ req : PlanRequest,
      filteredBots req = req.bots.filter fun b =>
        b.online && decide (b.cooldownMS ≤ 0) && !selfReplyExcluded req b) ∧
    (∀ (msgs : List ChatMessage) (m : ChatMessage), latestChatMessage msgs = some m →
      m ∈ msgs ∧ ∀ x ∈ msgs, x.timestampMS ≤ m.timestampMS) := by
  constructor
  · intro req
    unfold filteredBots filterSelfReplyBots filterAvailableBots
    cases hm : latestChatMessage req.chat with
    | none =>
      simp only [selfReplyExcluded, hm]
      rw [List.filter_congr]
      intro b _
      simp
    | some last =>
      by_cases hfold : equalFold last.senderType (str "BOT") = true
      · simp only [hfold, if_pos, List.filter_filter, selfReplyExcluded, hm]
        rw [List.filter_congr]
        intro b _
        exact Bool.and_comm _ _
      · simp only [selfReplyExcluded, hm, if_neg hfold]
        rw [List.filter_congr]
        intro b _
        simp [Bool.not_eq_true] at hfold
        simp [hfold]
  · intro msgs m hm
    cases msgs with
    | nil => simp [latestChatMessage] at hm
    | cons x rest =>
      unfold latestChatMessage at hm
      have hspec := latestFold_spec rest x
      rw [Option.some_inj.mp hm] at hspec
      constructor
      · rcases hspec.1 with h | h
        · simp [h]
        · exact List.mem_cons_of_mem _ h
      · intro y hy
        rcases List.mem_cons.mp hy with rfl | hy
        · exact hspec.2.1
        · exact hspec.2.2 y hy

/-- C5 witness: the amended filter equality evaluated on `reqC5`, and the
maximal-timestamp characterization at its concrete chat. -/
theorem c5_filter_amended_witness :
    filteredBots reqC5 = reqC5.bots.filter
      (fun b => b.online && decide (b.cooldownMS ≤ 0) && !selfReplyExcluded reqC5 b) ∧
    latestChatMessage reqC5.chat = some ⟨5, [], str "BOT", str "hej"⟩ ∧
    (⟨5, [], str "BOT", str "hej"⟩ : ChatMessage) ∈ reqC5.chat := by
  have h := c5_filter_amended
  exact ⟨h.1 reqC5, by decide,
    (h.2 reqC5.chat ⟨5, [], str "BOT", str "hej"⟩ (by decide)).1⟩

/- ===================================================================
   C4: the toxic veto
   =================================================================== -/

def rngZero : Rng := ⟨fun _ => 0, fun _ => 0, 0, 0⟩

def reqC4 : PlanRequest :=
  { requestID := str "r4"
    server := ⟨str "s", str "lobby", 1⟩
    tick := 1
    timeMS := 100
    bots := []
    chat := [⟨1, str "p", str "PLAYER", str "kurwa"⟩]
    settings := ⟨0, 0, 0, 0, 0⟩ }

/-- C4 counterexample: a request whose detected topic list contains Toxic
but whose filtered-available bot set is empty takes the early no-bots
return, so the response strategy is "" and not "toxic_silence". -/
theorem c4_toxic_counterexample :
    validEnum [topicToxic] reqC4.chat ∧
    topicToxic ∈ detectTopicsWith [topicToxic] reqC4.chat ∧
    (Plan noopLLM emptyMem [topicToxic] rngZero reqC4).debug.chosenStrategy ≠
      str "toxic_silence" := by
  refine ⟨by decide, by decide, by decide⟩

lemma containsTopic_of_mem {topics : List Str} {t : Str} (h : t ∈ topics) :
    containsTopic topics t = true := by
  simp only [containsTopic, List.any_eq_true]
  exact ⟨t, h, by simp⟩

/-- C4 (amended): for every request with at least one bot in the
filtered-available set whose detected topic list contains Toxic, `Plan`
returns an empty action list, strategy "toxic_silence", and a suppressed
count equal to the size of the filtered-available set. -/
theorem c4_toxic_amended (g : Generator) (mem : Mem) (enum : List Str) (rng : Rng)
    (req : PlanRequest) (hbots : filteredBots req ≠ [])
    (htoxic : topicToxic ∈ detectTopicsWith enum req.chat) :
    Plan g mem enum rng req =
      ⟨req.requestID, [], ⟨str "toxic_silence", (filteredBots req).length⟩⟩ := by
  have hbe : (filteredBots req).isEmpty = false := by
    cases h : filteredBots req with
    | nil => exact absurd h hbots
    | cons a l => rfl
  have htne : (detectTopicsWith enum req.chat).isEmpty = false := by
    cases h : detectTopicsWith enum req.chat with
    | nil => exact absurd h (List.ne_nil_of_mem htoxic)
    | cons a l => rfl
  have hct := containsTopic_of_mem htoxic
  unfold Plan PlanTagged buildPlanT
  simp [hbe, htne, hct]

def botA : BotProfile := ⟨str "b1", str "Bot1", true, 0, ⟨str "pl", [], [], [], []⟩⟩

def reqC4b : PlanRequest := { reqC4 with bots := [botA] }

/-- C4 witness: the amended toxic-veto theorem applied to a request with
one available bot and the chat ["kurwa"]. -/
theorem c4_toxic_amended_witness :
    filteredBots reqC4b ≠ [] ∧
    topicToxic ∈ detectTopicsWith [topicToxic] reqC4b.chat ∧
    Plan noopLLM emptyMem [topicToxic] rngZero reqC4b =
      ⟨reqC4b.requestID, [], ⟨str "toxic_silence", (filteredBots reqC4b).length⟩⟩ := by
  exact ⟨by decide, by decide,
    c4_toxic_amended noopLLM emptyMem [topicToxic] rngZero reqC4b (by decide) (by decide)⟩

/- ===================================================================
   C2: topic detection ordering
   =================================================================== -/

lemma insertDesc_perm (c : Str → Nat) (x : Str) (l : List Str) :
    List.Perm (insertDesc c x l) (x :: l) := by
  induction l with
  | nil => rfl
  | cons y ys ih =>
    unfold insertDesc
    by_cases h : c y ≤ c x
    · rw [if_pos h]
    · rw [if_neg h]
      exact List.Perm.trans (List.Perm.cons y ih) (List.Perm.swap x y ys)

lemma sortTopicsDesc_perm (c : Str → Nat) (l : List Str) :
    List.Perm (sortTopicsDesc c l) l := by
  induction l with
  | nil => rfl
  | cons x xs ih =>
    exact List.Perm.trans (insertDesc_perm c x (sortTopicsDesc c xs)) (List.Perm.cons x ih)

lemma mem_insertDesc {c : Str → Nat} {x z : Str} {l : List Str}
    (h : z ∈ insertDesc c x l) : z = x ∨ z ∈ l := by
  have := (insertDesc_perm c x l).mem_iff.mp h
  exact List.mem_cons.mp this

lemma insertDesc_pairwise (c : Str → Nat) (x : Str) (l : List Str)
    (h : List.Pairwise (fun a b => c b ≤ c a) l) :
    List.Pairwise (fun a b => c b ≤ c a) (insertDesc c x l) := by
  induction l with
  | nil =>
    show List.Pairwise _ [x]
    simp
  | cons y ys ih =>
    rcases List.pairwise_cons.mp h with ⟨hy, hys⟩
    unfold insertDesc
    by_cases hcx : c y ≤ c x
    · rw [if_pos hcx]
      refine List.pairwise_cons.mpr ⟨?_, h⟩
      intro z hz
      rcases List.mem_cons.mp hz with rfl | hz
      · exact hcx
      · exact le_trans (hy z hz) hcx
    · rw [if_neg hcx]
      refine List.pairwise_cons.mpr ⟨?_, ih hys⟩
      intro z hz
      rcases mem_insertDesc hz with rfl | hz
      · exact le_of_not_le hcx
      · exact hy z hz

lemma sortTopicsDesc_pairwise (c : Str → Nat) (l : List Str) :
    List.Pairwise (fun a b => c b ≤ c a) (sortTopicsDesc c l) := by
  induction l with
  | nil => simp [sortTopicsDesc]
  | cons x xs ih => exact insertDesc_pairwise c x (sortTopicsDesc c xs) ih

lemma insertDesc_filter (c : Str → Nat) (x : Str) (l : List Str) (k : Nat) :
    (insertDesc c x l).filter (fun t => c t == k) =
      (if c x == k then [x] else []) ++ l.filter (fun t => c t == k) := by
  induction l with
  | nil =>
    show List.filter _ [x] = _
    by_cases hk : c x = k
    · simp [hk]
    · simp [hk]
  | cons y ys ih =>
    unfold insertDesc
    by_cases hcx : c y ≤ c x
    · rw [if_pos hcx]
      by_cases hk : c x = k
      · simp [hk]
      · simp [hk]
    · rw [if_neg hcx]
      by_cases hyk : c y = k
      · have hxk : ¬ c x = k := by omega
        simp [List.filter_cons, hyk, hxk] at ih ⊢
        exact ih
      · simp [List.filter_cons, hyk] at ih ⊢
        exact ih

lemma sortTopicsDesc_filter (c : Str → Nat) (l : List Str) (k : Nat) :
    (sortTopicsDesc c l).filter (fun t => c t == k) = l.filter (fun t => c t == k) := by
  induction l with
  | nil => rfl
  | cons x xs ih =>
    show (insertDesc c x (sortTopicsDesc c xs)).filter _ = _
    rw [insertDesc_filter, ih]
    by_cases hk : c x = k
    · simp [hk]
    · simp [hk]

lemma lastN_idem (n : Nat) (l : List ChatMessage) : lastN n (lastN n l) = lastN n l := by
  unfold lastN
  rw [List.length_drop]
  have h : l.length - (l.length - n) - n = 0 := by omega
  rw [h, List.drop_zero]

lemma lastN_ne_nil {n : Nat} (hn : 0 < n) {l : List ChatMessage} (h : l ≠ []) :
    lastN n l ≠ [] := by
  intro he
  have hlen := congrArg List.length he
  rw [lastN, List.length_drop] at hlen
  have hl : 0 < l.length := List.length_pos.mpr h
  simp at hlen
  omega

lemma indicator_sum_le (o : Option Str) :
    (allTopics.map fun t => if o == some t then 1 else 0).sum ≤ 1 := by
  cases o with
  | none => decide
  | some s =>
    by_cases h1 : s = topicGreeting
    · simp only [h1]
      decide
    · by_cases h2 : s = topicPVPInvite
      · simp only [h2]
        decide
      · by_cases h3 : s = topicEvent
        · simp only [h3]
          decide
        · by_cases h4 : s = topicHelp
          · simp only [h4]
            decide
          · by_cases h5 : s = topicToxic
            · simp only [h5]
              decide
            · simp [allTopics, beq_iff_eq, h1, h2, h3, h4, h5]

lemma sum_countOf_le (w : List ChatMessage) :
    (allTopics.map (countOf w)).sum ≤ w.length := by
  induction w with
  | nil => decide
  | cons m w ih =>
    have hpt : countOf (m :: w)
        = fun t => countOf w t + (if classifyMessage m.message == some t then 1 else 0) := by
      funext t
      simp [countOf, List.countP_cons]
    have hsplit : (allTopics.map (countOf (m :: w))).sum
        = (allTopics.map (countOf w)).sum +
          (allTopics.map fun t => if classifyMessage m.message == some t then 1 else 0).sum := by
      rw [hpt, ← List.sum_map_add]
    rw [hsplit, List.length_cons]
    have := indicator_sum_le (classifyMessage m.message)
    omega

/-- The C2 claim's result, following the claim's words: topics with a
positive count over the 10-message window, sorted by count descending with
ties broken by the fixed canonical order
Greeting < PVPInvite < Event < Help < Toxic (the stable descending sort of
the canonically ordered key list). -/
def detectTopicsCanon (messages : List ChatMessage) : List Str :=
  sortTopicsDesc (countOf (lastN maxRecentMessages messages))
    (topicKeys (lastN maxRecentMessages messages))

def msgsC2 : List ChatMessage :=
  [⟨1, str "p", str "PLAYER", str "siema"⟩, ⟨2, str "p", str "PLAYER", str "event"⟩]

/-- C2 counterexample: for the chat ["siema", "event"] (greeting count 1,
event count 1) the admissible enumeration order [event, greeting] makes
`detectTopics` return [event, greeting], while the claimed canonical
tie-break demands [greeting, event]. -/
theorem c2_tie_order_counterexample :
    validEnum [topicEvent, topicGreeting] msgsC2 ∧
    detectTopicsWith [topicEvent, topicGreeting] msgsC2 = [topicEvent, topicGreeting] ∧
    detectTopicsCanon msgsC2 = [topicGreeting, topicEvent] ∧
    detectTopicsWith [topicEvent, topicGreeting] msgsC2 ≠ detectTopicsCanon msgsC2 := by
  refine ⟨by decide, by decide, by decide, by decide⟩

/-- C2 (amended): `detectTopics` considers only the last 10 messages,
classifies each message to at most one topic (so the per-topic counts sum
to at most the window length), and returns exactly the positive-count
topics sorted by count descending — but equal-count topics appear in the
runtime's map-enumeration order (filtering the result to any fixed count
reproduces the enumeration order), not in a fixed canonical order; an
empty window or a window with no keyword hits yields an empty result. -/
theorem c2_detect_topics_amended (msgs : List ChatMessage) (enum : List Str)
    (hvalid : validEnum enum msgs) :
    detectTopicsWith enum msgs = detectTopicsWith enum (lastN maxRecentMessages msgs) ∧
    List.Perm (detectTopicsWith enum msgs) (topicKeys (lastN maxRecentMessages msgs)) ∧
    List.Pairwise
      (fun a b => countOf (lastN maxRecentMessages msgs) b ≤
        countOf (lastN maxRecentMessages msgs) a)
      (detectTopicsWith enum msgs) ∧
    (∀ k : Nat,
      (detectTopicsWith enum msgs).filter
          (fun t => countOf (lastN maxRecentMessages msgs) t == k)
        = enum.filter (fun t => countOf (lastN maxRecentMessages msgs) t == k)) ∧
    ((msgs = [] ∨ ∀ m ∈ lastN maxRecentMessages msgs, classifyMessage m.message = none) →
      detectTopicsWith enum msgs = []) ∧
    (allTopics.map (countOf (lastN maxRecentMessages msgs))).sum ≤
      (lastN maxRecentMessages msgs).length := by
  by_cases hm : msgs = []
  · subst hm
    have hkeys : topicKeys (lastN maxRecentMessages ([] : List ChatMessage)) = [] := by decide
    have hvalid2 : List.Perm enum (topicKeys (lastN maxRecentMessages [])) := hvalid
    rw [hkeys] at hvalid2
    have henum : enum = [] := hvalid2.eq_nil
    subst henum
    refine ⟨rfl, ?_, ?_, ?_, ?_, ?_⟩
    · rw [hkeys]
      rfl
    · simp [detectTopicsWith]
    · intro k
      simp [detectTopicsWith]
    · intro _
      rfl
    · decide
  · have hwodef : detectTopicsWith enum msgs
        = sortTopicsDesc (countOf (lastN maxRecentMessages msgs)) enum := by
      unfold detectTopicsWith
      rw [if_neg]
      simp [List.isEmpty_iff, hm]
    refine ⟨?_, ?_, ?_, ?_, ?_, sum_countOf_le _⟩
    · have hne : lastN maxRecentMessages msgs ≠ [] := lastN_ne_nil (by decide) hm
      unfold detectTopicsWith
      rw [if_neg, if_neg]
      · rw [lastN_idem]
      · simp [List.isEmpty_iff, hne]
      · simp [List.isEmpty_iff, hm]
    · rw [hwodef]
      exact (sortTopicsDesc_perm _ enum).trans hvalid
    · rw [hwodef]
      exact sortTopicsDesc_pairwise _ enum
    · intro k
      rw [hwodef]
      exact sortTopicsDesc_filter _ enum k
    · rintro (rfl | hnone)
      · exact absurd rfl hm
      · have hzero : ∀ t, countOf (lastN maxRecentMessages msgs) t = 0 := by
          intro t
          unfold countOf
          rw [List.countP_eq_zero]
          intro m hmem
          simp [hnone m hmem]
        have hkeys : topicKeys (lastN maxRecentMessages msgs) = [] := by
          unfold topicKeys
          rw [List.filter_eq_nil_iff]
          intro t _
          simp [hzero t]
        have hvalid2 : List.Perm enum (topicKeys (lastN maxRecentMessages msgs)) := hvalid
        rw [hkeys] at hvalid2
        have henum : enum = [] := hvalid2.eq_nil
        rw [hwodef, henum]
        rfl

/-- C2 witness: the amended theorem applied to the concrete chat
["siema", "event"] with enumeration order [event, greeting]. -/
theorem c2_detect_topics_amended_witness :
    validEnum [topicEvent, topicGreeting] msgsC2 ∧
    List.Perm (detectTopicsWith [topicEvent, topicGreeting] msgsC2)
      (topicKeys (lastN maxRecentMessages msgsC2)) ∧
    (detectTopicsWith [topicEvent, topicGreeting] msgsC2).filter
        (fun t => countOf (lastN maxRecentMessages msgsC2) t == 1)
      = [topicEvent, topicGreeting].filter
          (fun t => countOf (lastN maxRecentMessages msgsC2) t == 1) := by
  have h := c2_detect_topics_amended msgsC2 [topicEvent, topicGreeting] (by decide)
  exact ⟨by decide, h.2.1, h.2.2.2.1 1⟩

/- ===================================================================
   C1: determinism of Plan
   =================================================================== -/

def reqC1 : PlanRequest :=
  { requestID := str "req-1"
    server := ⟨str "srv", str "LOBBY", 3⟩
    tick := 7
    timeMS := 1000
    bots := [botA]
    chat := msgsC2
    settings := ⟨0, 0, 0, 0, 0⟩ }

/-- C1: for the fixed request `reqC1` (chat ["siema", "event"], one bot,
default settings) and one fixed seeded-RNG draw stream, two admissible
map-enumeration orders of `detectTopics`' count map produce different
`Plan` responses, so the response is not a function of (request-id, tick,
time-ms, bots, chat, settings) alone. -/
theorem c1_plan_tie_nondeterminism :
    validEnum [topicGreeting, topicEvent] reqC1.chat ∧
    validEnum [topicEvent, topicGreeting] reqC1.chat ∧
    Plan noopLLM emptyMem [topicGreeting, topicEvent] rngZero reqC1 ≠
      Plan noopLLM emptyMem [topicEvent, topicGreeting] rngZero reqC1 := by
  refine ⟨by decide, by decide, by decide⟩

/- ===================================================================
   Loop invariants for the reply-building folds
   =================================================================== -/

lemma foldl_invariant {α β : Type} (step : β → α → β) (Q : β → Prop)
    (hstep : ∀ st x, Q st → Q (step st x)) :
    ∀ (l : List α) (st : β), Q st → Q (l.foldl step st)
  | [], _, h => h
  | x :: xs, st, h => foldl_invariant step Q hstep xs (step st x) (hstep st x h)

/-- What one `buildPlan` loop iteration does to the accumulated actions and
the memory: either nothing, or it appends exactly one action generated for
the pair and remembers the pair's key at the request time. -/
lemma buildStep_cases (g : Generator) (req : PlanRequest) (settings : PlanSettings)
    (st : BuildSt) (pair : Str × BotProfile) :
    ((buildStep g req settings st pair).tagged = st.tagged ∧
     (buildStep g req settings st pair).mem = st.mem) ∨
    (∃ rng1 m reason a u delay,
      generateMessage g req pair.1 pair.2 st.rng = ((m, reason, a, u), rng1) ∧ m ≠ [] ∧
      (buildStep g req settings st pair).tagged = st.tagged ++
        [⟨pair.1, pair.1, pair.2, ⟨pair.2.botID, delay, m, str "PUBLIC", reason⟩⟩] ∧
      (buildStep g req settings st pair).mem =
        rememberMem st.mem req.server.serverID pair.2.botID pair.1 req.timeMS) := by
  unfold buildStep
  by_cases hfull : (st.tagged.length : Int) ≥ settings.maxActions
  · rw [if_pos hfull]
    exact Or.inl ⟨rfl, rfl⟩
  · rw [if_neg hfull]
    by_cases hsup : shouldSuppress st.mem req.server.serverID pair.2.botID pair.1 req.timeMS = true
    · rw [if_pos hsup]
      exact Or.inl ⟨rfl, rfl⟩
    · rw [if_neg hsup]
      rcases hgm : generateMessage g req pair.1 pair.2 st.rng with ⟨⟨m, reason, a, u⟩, rng1⟩
      by_cases hm : m = []
      · subst hm
        simp only [hgm]
        exact Or.inl ⟨rfl, rfl⟩
      · simp only [hgm]
        rcases hrd : randomDelay settings rng1 with ⟨delay, rng2⟩
        right
        refine ⟨rng1, m, reason, a, u, delay, rfl, hm, ?_, ?_⟩
        · simp [hm, hrd]
        · simp [hm, hrd]

/-- The small-talk analogue of `buildStep_cases` (key remembered under the
pseudo-topic "small_talk", generation topic empty). -/
lemma smallTalkStep_cases (g : Generator) (req : PlanRequest) (settings : PlanSettings)
    (st : BuildSt) (bot : BotProfile) :
    ((smallTalkStep g req settings st bot).tagged = st.tagged ∧
     (smallTalkStep g req settings st bot).mem = st.mem) ∨
    (∃ rng1 m reason a u delay,
      generateMessage g req [] bot st.rng = ((m, reason, a, u), rng1) ∧ m ≠ [] ∧
      (smallTalkStep g req settings st bot).tagged = st.tagged ++
        [⟨[], str "small_talk", bot, ⟨bot.botID, delay, m, str "PUBLIC", reason⟩⟩] ∧
      (smallTalkStep g req settings st bot).mem =
        rememberMem st.mem req.server.serverID bot.botID (str "small_talk") req.timeMS) := by
  unfold smallTalkStep
  rcases hgm : generateMessage g req [] bot st.rng with ⟨⟨m, reason, a, u⟩, rng1⟩
  by_cases hm : m = []
  · subst hm
    simp only [hgm]
    exact Or.inl ⟨rfl, rfl⟩
  · simp only [hgm]
    rcases hrd : randomDelay settings rng1 with ⟨delay, rng2⟩
    right
    refine ⟨rng1, m, reason, a, u, delay, rfl, hm, ?_, ?_⟩
    · simp [hm, hrd]
    · simp [hm, hrd]

/- ===================================================================
   C6: the avoid-topic veto
   =================================================================== -/

/-- The C6 claim's hypothesis on a persona's avoid-topics list. -/
def claimAvoidHit (topic : Str) (avoid : List Str) : Prop :=
  ∃ item ∈ avoid, item = topic ∨
    (containsSub (lowerStr item) (str "pvp") = true ∧ topic = topicPVPInvite) ∨
    (containsSub (lowerStr item) (str "event") = true ∧ topic = topicEvent)

lemma shouldAvoidTopic_of_claimAvoidHit {topic : Str} {avoid : List Str}
    (htopic : topic ∈ allTopics) (h : claimAvoidHit topic avoid) :
    shouldAvoidTopic topic avoid = true := by
  have htne : topic ≠ [] := by
    have h5 : topic = topicGreeting ∨ topic = topicPVPInvite ∨ topic = topicEvent ∨
        topic = topicHelp ∨ topic = topicToxic := by
      simpa [allTopics] using htopic
    rcases h5 with rfl | rfl | rfl | rfl | rfl <;> decide
  obtain ⟨item, hmem, hcase⟩ := h
  unfold shouldAvoidTopic
  rw [if_neg htne]
  rw [List.any_eq_true]
  refine ⟨item, hmem, ?_⟩
  rcases hcase with rfl | ⟨hsub, rfl⟩ | ⟨hsub, rfl⟩
  · simp [equalFold]
  · simp [hsub]
  · simp [hsub]

lemma generateMessage_avoided (g : Generator) (req : PlanRequest) (topic : Str)
    (bot : BotProfile) (rng : Rng)
    (h : shouldAvoidTopic topic bot.persona.avoidTopics = true) :
    generateMessage g req topic bot rng = (([], [], false, false), rng) := by
  unfold generateMessage
  rw [if_pos h]

def stInit (mem : Mem) (rng : Rng) : BuildSt := ⟨[], 0, false, false, mem, rng⟩

/-- Branch characterization of `buildPlanT`: a terminal branch that emits
nothing and leaves the memory alone, the small-talk fold, or the
reply-building fold. -/
lemma buildPlanT_output (g : Generator) (req : PlanRequest) (topics : List Str)
    (bots : List BotProfile) (settings : PlanSettings) (mem : Mem) (rng : Rng) :
    (∃ strat supp rngx,
      (strat = str "silence" ∨ strat = str "toxic_silence" ∨ strat = str "reply_suppressed") ∧
      buildPlanT g req topics bots settings mem rng =
        ([], strat, supp, false, false, mem, rngx)) ∨
    (∃ (sel : List BotProfile) (rng2 : Rng),
      buildPlanT g req topics bots settings mem rng =
        ((sel.foldl (smallTalkStep g req settings) (stInit mem rng2)).tagged,
         strategyLabel (str "small_talk")
           (sel.foldl (smallTalkStep g req settings) (stInit mem rng2)).att
           (sel.foldl (smallTalkStep g req settings) (stInit mem rng2)).used,
         0,
         (sel.foldl (smallTalkStep g req settings) (stInit mem rng2)).att,
         (sel.foldl (smallTalkStep g req settings) (stInit mem rng2)).used,
         (sel.foldl (smallTalkStep g req settings) (stInit mem rng2)).mem,
         (sel.foldl (smallTalkStep g req settings) (stInit mem rng2)).rng)) ∨
    (∃ (pairs : List (Str × BotProfile)) (rng2 : Rng),
      buildPlanT g req topics bots settings mem rng =
        ((pairs.foldl (buildStep g req settings) (stInit mem rng2)).tagged,
         strategyLabel (str "heuristics")
           (pairs.foldl (buildStep g req settings) (stInit mem rng2)).att
           (pairs.foldl (buildStep g req settings) (stInit mem rng2)).used,
         (pairs.foldl (buildStep g req settings) (stInit mem rng2)).suppressed,
         (pairs.foldl (buildStep g req settings) (stInit mem rng2)).att,
         (pairs.foldl (buildStep g req settings) (stInit mem rng2)).used,
         (pairs.foldl (buildStep g req settings) (stInit mem rng2)).mem,
         (pairs.foldl (buildStep g req settings) (stInit mem rng2)).rng)) := by
  unfold buildPlanT
  by_cases htop : topics.isEmpty = true
  · rw [if_pos htop]
    rcases hf : rng.float64 with ⟨u, rng1⟩
    by_cases hsil : u < settings.globalSilenceChance
    · left
      exact ⟨str "silence", 1, rng1, Or.inl rfl, by simp [hsil]⟩
    · right; left
      refine ⟨(pickBots bots 1 rng1).1, (pickBots bots 1 rng1).2, ?_⟩
      simp only [hsil, if_false]
      rfl
  · rw [if_neg htop]
    by_cases htox : containsTopic topics topicToxic = true
    · rw [if_pos htox]
      left
      exact ⟨str "toxic_silence", bots.length, rng, Or.inr (Or.inl rfl), rfl⟩
    · rw [if_neg htox]
      rcases hf : rng.float64 with ⟨u, rng1⟩
      by_cases hrep : u > settings.replyChance
      · left
        exact ⟨str "reply_suppressed", 1, rng1, Or.inr (Or.inr rfl), by simp [hrep]⟩
      · right; right
        refine ⟨topics.flatMap fun t =>
          ((pickBots bots settings.maxActions rng1).1).map fun b => (t, b),
          (pickBots bots settings.maxActions rng1).2, ?_⟩
        simp only [hrep, if_false]
        unfold buildReplies
        rfl

/-- Final state of the small-talk loop. -/
def smallSt (g : Generator) (req : PlanRequest) (settings : PlanSettings)
    (mem : Mem) (rng2 : Rng) (sel : List BotProfile) : BuildSt :=
  sel.foldl (smallTalkStep g req settings) (stInit mem rng2)

/-- Final state of the reply-building double loop, as a fold over pairs. -/
def repliesSt (g : Generator) (req : PlanRequest) (settings : PlanSettings)
    (mem : Mem) (rng2 : Rng) (pairs : List (Str × BotProfile)) : BuildSt :=
  pairs.foldl (buildStep g req settings) (stInit mem rng2)

lemma PlanTagged_actions (g : Generator) (mem : Mem) (enum : List Str) (rng : Rng)
    (req : PlanRequest) :
    (PlanTagged g mem enum rng req).response.actions =
      (PlanTagged g mem enum rng req).tagged.map (·.action) := by
  unfold PlanTagged
  by_cases h : (filteredBots req).isEmpty = true
  · simp [h]
  · simp [h]

/-- Branch characterization of `PlanTagged`: either a terminal branch with
no tagged actions, untouched memory and cleared flags, or the output of
one of the two generation folds with the matching strategy label. -/
lemma PlanTagged_output (g : Generator) (mem : Mem) (enum : List Str) (rng : Rng)
    (req : PlanRequest) :
    ((PlanTagged g mem enum rng req).tagged = [] ∧
     (PlanTagged g mem enum rng req).mem = mem ∧
     (PlanTagged g mem enum rng req).att = false ∧
     (PlanTagged g mem enum rng req).used = false ∧
     ((PlanTagged g mem enum rng req).response.debug.chosenStrategy = [] ∨
      (PlanTagged g mem enum rng req).response.debug.chosenStrategy = str "silence" ∨
      (PlanTagged g mem enum rng req).response.debug.chosenStrategy = str "toxic_silence" ∨
      (PlanTagged g mem enum rng req).response.debug.chosenStrategy = str "reply_suppressed")) ∨
    (∃ sel rng2,
      (PlanTagged g mem enum rng req).tagged =
        (smallSt g req (normalizeSettings req.settings) mem rng2 sel).tagged ∧
      (PlanTagged g mem enum rng req).mem =
        (smallSt g req (normalizeSettings req.settings) mem rng2 sel).mem ∧
      (PlanTagged g mem enum rng req).att =
        (smallSt g req (normalizeSettings req.settings) mem rng2 sel).att ∧
      (PlanTagged g mem enum rng req).used =
        (smallSt g req (normalizeSettings req.settings) mem rng2 sel).used ∧
      (PlanTagged g mem enum rng req).response.debug.chosenStrategy =
        strategyLabel (str "small_talk")
          (smallSt g req (normalizeSettings req.settings) mem rng2 sel).att
          (smallSt g req (normalizeSettings req.settings) mem rng2 sel).used) ∨
    (∃ pairs rng2,
      (PlanTagged g mem enum rng req).tagged =
        (repliesSt g req (normalizeSettings req.settings) mem rng2 pairs).tagged ∧
      (PlanTagged g mem enum rng req).mem =
        (repliesSt g req (normalizeSettings req.settings) mem rng2 pairs).mem ∧
      (PlanTagged g mem enum rng req).att =
        (repliesSt g req (normalizeSettings req.settings) mem rng2 pairs).att ∧
      (PlanTagged g mem enum rng req).used =
        (repliesSt g req (normalizeSettings req.settings) mem rng2 pairs).used ∧
      (PlanTagged g mem enum rng req).response.debug.chosenStrategy =
        strategyLabel (str "heuristics")
          (repliesSt g req (normalizeSettings req.settings) mem rng2 pairs).att
          (repliesSt g req (normalizeSettings req.settings) mem rng2 pairs).used) := by
  unfold PlanTagged
  by_cases hav : (filteredBots req).isEmpty = true
  · simp only [hav, if_pos]
    left
    exact ⟨by simp, by simp, by simp, by simp, Or.inl (by simp)⟩
  · simp only [hav, Bool.false_eq_true, if_false]
    rcases buildPlanT_output g req (detectTopicsWith enum req.chat) (filteredBots req)
        (normalizeSettings req.settings) mem rng with
      ⟨strat, supp, rngx, hstrat, heq⟩ | ⟨sel, rng2, heq⟩ | ⟨pairs, rng2, heq⟩
    · left
      refine ⟨by rw [heq], by rw [heq], by rw [heq], by rw [heq], ?_⟩
      rcases hstrat with rfl | rfl | rfl
      · right; left; rw [heq]
      · right; right; left; rw [heq]
      · right; right; right; rw [heq]
    · right; left
      exact ⟨sel, rng2, by rw [heq]; rfl, by rw [heq]; rfl, by rw [heq]; rfl,
        by rw [heq]; rfl, by rw [heq]; rfl⟩
    · right; right
      exact ⟨pairs, rng2, by rw [heq]; rfl, by rw [heq]; rfl, by rw [heq]; rfl,
        by rw [heq]; rfl, by rw [heq]; rfl⟩

lemma buildStep_preserves_notAvoided (g : Generator) (req : PlanRequest)
    (settings : PlanSettings) (st : BuildSt) (pair : Str × BotProfile)
    (hst : ∀ tg ∈ st.tagged, shouldAvoidTopic tg.topic tg.bot.persona.avoidTopics = false) :
    ∀ tg ∈ (buildStep g req settings st pair).tagged,
      shouldAvoidTopic tg.topic tg.bot.persona.avoidTopics = false := by
  intro tg htg
  rcases buildStep_cases g req settings st pair with
    ⟨heq, -⟩ | ⟨rng1, m, reason, a, u, delay, hgm, hm, heq, -⟩
  · rw [heq] at htg
    exact hst tg htg
  · rw [heq] at htg
    rcases List.mem_append.mp htg with htg | htg
    · exact hst tg htg
    · rcases List.mem_singleton.mp htg with rfl
      by_cases havd : shouldAvoidTopic pair.1 pair.2.persona.avoidTopics = true
      · rw [generateMessage_avoided g req pair.1 pair.2 st.rng havd] at hgm
        exact absurd (congrArg (fun z => z.1.1) hgm).symm hm
      · simpa using havd

lemma smallTalkStep_preserves_notAvoided (g : Generator) (req : PlanRequest)
    (settings : PlanSettings) (st : BuildSt) (bot : BotProfile)
    (hst : ∀ tg ∈ st.tagged, shouldAvoidTopic tg.topic tg.bot.persona.avoidTopics = false) :
    ∀ tg ∈ (smallTalkStep g req settings st bot).tagged,
      shouldAvoidTopic tg.topic tg.bot.persona.avoidTopics = false := by
  intro tg htg
  rcases smallTalkStep_cases g req settings st bot with
    ⟨heq, -⟩ | ⟨rng1, m, reason, a, u, delay, hgm, hm, heq, -⟩
  · rw [heq] at htg
    exact hst tg htg
  · rw [heq] at htg
    rcases List.mem_append.mp htg with htg | htg
    · exact hst tg htg
    · rcases List.mem_singleton.mp htg with rfl
      simp [shouldAvoidTopic]

/-- No tagged action produced by `Plan` comes from a (topic, bot) pair the
persona veto rejects: the veto yields the empty message for any generator
and any RNG state, and empty messages are never appended. -/
lemma tagged_not_avoided (g : Generator) (mem : Mem) (enum : List Str) (rng : Rng)
    (req : PlanRequest) :
    ∀ tg ∈ (PlanTagged g mem enum rng req).tagged,
      shouldAvoidTopic tg.topic tg.bot.persona.avoidTopics = false := by
  rcases PlanTagged_output g mem enum rng req with
    ⟨htag, -, -, -, -⟩ | ⟨sel, rng2, htag, -, -, -, -⟩ | ⟨pairs, rng2, htag, -, -, -, -⟩
  · rw [htag]
    intro tg htg
    simp at htg
  · rw [htag]
    exact foldl_invariant (smallTalkStep g req (normalizeSettings req.settings))
      (fun st => ∀ tg ∈ st.tagged, shouldAvoidTopic tg.topic tg.bot.persona.avoidTopics = false)
      (smallTalkStep_preserves_notAvoided g req (normalizeSettings req.settings))
      sel (stInit mem rng2) (by intro tg htg; simp [stInit] at htg)
  · rw [htag]
    exact foldl_invariant (buildStep g req (normalizeSettings req.settings))
      (fun st => ∀ tg ∈ st.tagged, shouldAvoidTopic tg.topic tg.bot.persona.avoidTopics = false)
      (buildStep_preserves_notAvoided g req (normalizeSettings req.settings))
      pairs (stInit mem rng2) (by intro tg htg; simp [stInit] at htg)

/-- C6: for every topic of the fixed topic set and every bot whose persona
avoid-topics list contains an entry exactly matching the topic name, or an
entry containing the substring "pvp" while the topic is PVPInvite, or an
entry containing "event" while the topic is Event, message generation for
that (topic, bot) pair yields the empty message with delegation never
attempted — for every generator and RNG state — and consequently, across
all requests, memories, enumeration orders and draw streams, no action
tagged with that topic is ever produced by that bot's profile. -/
theorem c6_avoid_topic_veto (topic : Str) (bot : BotProfile)
    (htopic : topic ∈ allTopics)
    (hhit : claimAvoidHit topic bot.persona.avoidTopics) :
    (∀ (g : Generator) (req : PlanRequest) (rng : Rng),
      generateMessage g req topic bot rng = (([], [], false, false), rng)) ∧
    (∀ (g : Generator) (mem : Mem) (enum : List Str) (rng : Rng) (req : PlanRequest),
      ∀ tg ∈ (PlanTagged g mem enum rng req).tagged, ¬(tg.topic = topic ∧ tg.bot = bot)) := by
  have havd := shouldAvoidTopic_of_claimAvoidHit htopic hhit
  constructor
  · intro g req rng
    exact generateMessage_avoided g req topic bot rng havd
  · intro g mem enum rng req tg htg ⟨ht, hb⟩
    have := tagged_not_avoided g mem enum rng req tg htg
    rw [ht, hb] at this
    rw [this] at havd
    exact Bool.false_ne_true havd

def botAvoid : BotProfile :=
  ⟨str "b2", str "Cichy", true, 0, ⟨str "pl", [], [], [str "no_pvp"], []⟩⟩

/-- C6 witness: a persona with avoid-topics ["no_pvp"] and the PVPInvite
topic, fed to the veto theorem at a concrete generator, request and RNG. -/
theorem c6_avoid_topic_veto_witness :
    topicPVPInvite ∈ allTopics ∧
    claimAvoidHit topicPVPInvite botAvoid.persona.avoidTopics ∧
    generateMessage noopLLM reqC1 topicPVPInvite botAvoid rngZero =
      (([], [], false, false), rngZero) := by
  have hhit : claimAvoidHit topicPVPInvite botAvoid.persona.avoidTopics :=
    ⟨str "no_pvp", by decide, Or.inr (Or.inl ⟨by decide, rfl⟩)⟩
  have h := c6_avoid_topic_veto topicPVPInvite botAvoid (by decide) hhit
  exact ⟨by decide, hhit, h.1 noopLLM reqC1 rngZero⟩

/- ===================================================================
   C8: generation failure is non-fatal and labelled _fallback
   =================================================================== -/

lemma generateResponse_reason_ne_llm (topic : Str) (bot : BotProfile) (rng : Rng) :
    ((generateResponse topic bot rng).1).2 ≠ str "llm" := by
  unfold generateResponse
  by_cases h0 : shouldAvoidTopic topic bot.persona.avoidTopics = true
  · rw [if_pos h0]
    exact show ([] : Str) ≠ str "llm" by decide
  · rw [if_neg h0]
    repeat' split
    all_goals
      first
      | exact show ([] : Str) ≠ str "llm" by decide
      | exact show str "greeting" ≠ str "llm" by decide
      | exact show str "avoid_real_pvp" ≠ str "llm" by decide
      | exact show str "react_to_event" ≠ str "llm" by decide
      | exact show str "helpful_hint" ≠ str "llm" by decide
      | exact show str "small_talk" ≠ str "llm" by decide

lemma generateMessage_reason_used (g : Generator) (req : PlanRequest) (topic : Str)
    (bot : BotProfile) (rng : Rng) (herr : ∀ r, g.generate r = none) :
    ((generateMessage g req topic bot rng).1).2.1 ≠ str "llm" ∧
    ((generateMessage g req topic bot rng).1).2.2.2 = false := by
  unfold generateMessage
  by_cases h0 : shouldAvoidTopic topic bot.persona.avoidTopics = true
  · rw [if_pos h0]
    exact ⟨show ([] : Str) ≠ str "llm" by decide, rfl⟩
  · rw [if_neg h0]
    by_cases he : g.enabled = true
    · simp only [he, if_true, herr]
      rcases hgr : generateResponse topic bot rng with ⟨⟨hm, hr⟩, rr⟩
      have := generateResponse_reason_ne_llm topic bot rng
      rw [hgr] at this
      simp only [hgr]
      exact ⟨this, trivial⟩
    · simp only [he, Bool.false_eq_true, if_false]
      rcases hgr : generateResponse topic bot rng with ⟨⟨hm, hr⟩, rr⟩
      have := generateResponse_reason_ne_llm topic bot rng
      rw [hgr] at this
      simp only [hgr]
      exact ⟨this, trivial⟩

lemma strategyLabel_eq_llm_iff (base : Str) (att used : Bool)
    (h1 : base ≠ str "llm") (h2 : base ++ str "_fallback" ≠ str "llm") :
    (strategyLabel base att used = str "llm" ↔ used = true) := by
  unfold strategyLabel
  cases used
  · cases att <;> simp [h1, h2]
  · simp

lemma buildStep_preserves_reason (g : Generator) (req : PlanRequest)
    (settings : PlanSettings) (herr : ∀ r, g.generate r = none)
    (st : BuildSt) (pair : Str × BotProfile)
    (hst : ∀ tg ∈ st.tagged, tg.action.reason ≠ str "llm") :
    ∀ tg ∈ (buildStep g req settings st pair).tagged, tg.action.reason ≠ str "llm" := by
  intro tg htg
  rcases buildStep_cases g req settings st pair with
    ⟨heq, -⟩ | ⟨rng1, m, reason, a, u, delay, hgm, hm, heq, -⟩
  · rw [heq] at htg
    exact hst tg htg
  · rw [heq] at htg
    rcases List.mem_append.mp htg with htg | htg
    · exact hst tg htg
    · rcases List.mem_singleton.mp htg with rfl
      have := (generateMessage_reason_used g req pair.1 pair.2 st.rng herr).1
      rw [hgm] at this
      exact this

lemma smallTalkStep_preserves_reason (g : Generator) (req : PlanRequest)
    (settings : PlanSettings) (herr : ∀ r, g.generate r = none)
    (st : BuildSt) (bot : BotProfile)
    (hst : ∀ tg ∈ st.tagged, tg.action.reason ≠ str "llm") :
    ∀ tg ∈ (smallTalkStep g req settings st bot).tagged, tg.action.reason ≠ str "llm" := by
  intro tg htg
  rcases smallTalkStep_cases g req settings st bot with
    ⟨heq, -⟩ | ⟨rng1, m, reason, a, u, delay, hgm, hm, heq, -⟩
  · rw [heq] at htg
    exact hst tg htg
  · rw [heq] at htg
    rcases List.mem_append.mp htg with htg | htg
    · exact hst tg htg
    · rcases List.mem_singleton.mp htg with rfl
      have := (generateMessage_reason_used g req [] bot st.rng herr).1
      rw [hgm] at this
      exact this

lemma buildStep_used (g : Generator) (req : PlanRequest) (settings : PlanSettings)
    (herr : ∀ r, g.generate r = none) (st : BuildSt) (pair : Str × BotProfile)
    (hu : st.used = false) : (buildStep g req settings st pair).used = false := by
  unfold buildStep
  by_cases hfull : (st.tagged.length : Int) ≥ settings.maxActions
  · rw [if_pos hfull]
    exact hu
  · rw [if_neg hfull]
    by_cases hsup : shouldSuppress st.mem req.server.serverID pair.2.botID pair.1 req.timeMS = true
    · rw [if_pos hsup]
      exact hu
    · rw [if_neg hsup]
      rcases hgm : generateMessage g req pair.1 pair.2 st.rng with ⟨⟨m, reason, a, u⟩, rng1⟩
      have hu2 : u = false := by
        have := (generateMessage_reason_used g req pair.1 pair.2 st.rng herr).2
        rw [hgm] at this
        exact this
      simp only [hgm]
      by_cases hm : m = []
      · simp [hm, hu, hu2]
      · simp [hm, hu, hu2]

lemma smallTalkStep_used (g : Generator) (req : PlanRequest) (settings : PlanSettings)
    (herr : ∀ r, g.generate r = none) (st : BuildSt) (bot : BotProfile)
    (hu : st.used = false) : (smallTalkStep g req settings st bot).used = false := by
  unfold smallTalkStep
  rcases hgm : generateMessage g req [] bot st.rng with ⟨⟨m, reason, a, u⟩, rng1⟩
  have hu2 : u = false := by
    have := (generateMessage_reason_used g req [] bot st.rng herr).2
    rw [hgm] at this
    exact this
  simp only [hgm]
  by_cases hm : m = []
  · simp [hm, hu, hu2]
  · simp [hm, hu, hu2]

/-- C8: with a generator whose `Generate` always errors, every action's
reason differs from "llm" and the reported strategy is never "llm";
whenever delegation was attempted for at least one slot, the strategy is
the branch's base label with "_fallback" appended; and for an arbitrary
generator the strategy is "llm" exactly when delegation succeeded for at
least one action of the batch (`Plan` itself is a total function, so
generation failure never aborts it). -/
theorem c8_error_generator_fallback (g : Generator) (mem : Mem) (enum : List Str)
    (rng : Rng) (req : PlanRequest) (herr : ∀ r, g.generate r = none) :
    (∀ a ∈ (PlanTagged g mem enum rng req).response.actions, a.reason ≠ str "llm") ∧
    ((PlanTagged g mem enum rng req).att = true →
      ((PlanTagged g mem enum rng req).response.debug.chosenStrategy =
          str "heuristics" ++ str "_fallback" ∨
       (PlanTagged g mem enum rng req).response.debug.chosenStrategy =
          str "small_talk" ++ str "_fallback")) ∧
    (PlanTagged g mem enum rng req).response.debug.chosenStrategy ≠ str "llm" ∧
    (∀ g' : Generator,
      ((PlanTagged g' mem enum rng req).response.debug.chosenStrategy = str "llm" ↔
        (PlanTagged g' mem enum rng req).used = true)) := by
  have hused : (PlanTagged g mem enum rng req).used = false := by
    rcases PlanTagged_output g mem enum rng req with
      ⟨-, -, -, hu, -⟩ | ⟨sel, rng2, -, -, -, hu, -⟩ | ⟨pairs, rng2, -, -, -, hu, -⟩
    · exact hu
    · rw [hu]
      exact foldl_invariant (smallTalkStep g req (normalizeSettings req.settings))
        (fun st => st.used = false)
        (fun st x h => smallTalkStep_used g req (normalizeSettings req.settings) herr st x h)
        sel (stInit mem rng2) rfl
    · rw [hu]
      exact foldl_invariant (buildStep g req (normalizeSettings req.settings))
        (fun st => st.used = false)
        (fun st x h => buildStep_used g req (normalizeSettings req.settings) herr st x h)
        pairs (stInit mem rng2) rfl
  have hiff : ∀ g' : Generator,
      ((PlanTagged g' mem enum rng req).response.debug.chosenStrategy = str "llm" ↔
        (PlanTagged g' mem enum rng req).used = true) := by
    intro g'
    rcases PlanTagged_output g' mem enum rng req with
      ⟨-, -, -, hu, hs⟩ | ⟨sel, rng2, -, -, -, hu, hs⟩ | ⟨pairs, rng2, -, -, -, hu, hs⟩
    · rw [hu]
      rcases hs with hs | hs | hs | hs <;> rw [hs] <;> simp <;> decide
    · rw [hu, hs]
      exact strategyLabel_eq_llm_iff (str "small_talk") _ _ (by decide) (by decide)
    · rw [hu, hs]
      exact strategyLabel_eq_llm_iff (str "heuristics") _ _ (by decide) (by decide)
  refine ⟨?_, ?_, ?_, hiff⟩
  · intro a ha
    rw [PlanTagged_actions] at ha
    rcases List.mem_map.mp ha with ⟨tg, htg, rfl⟩
    have hreason : ∀ tg ∈ (PlanTagged g mem enum rng req).tagged,
        tg.action.reason ≠ str "llm" := by
      rcases PlanTagged_output g mem enum rng req with
        ⟨htag, -, -, -, -⟩ | ⟨sel, rng2, htag, -, -, -, -⟩ | ⟨pairs, rng2, htag, -, -, -, -⟩
      · rw [htag]
        intro tg htg
        simp at htg
      · rw [htag]
        exact foldl_invariant (smallTalkStep g req (normalizeSettings req.settings))
          (fun st => ∀ tg ∈ st.tagged, tg.action.reason ≠ str "llm")
          (fun st x h => smallTalkStep_preserves_reason g req (normalizeSettings req.settings)
            herr st x h)
          sel (stInit mem rng2) (by intro tg htg; simp [stInit] at htg)
      · rw [htag]
        exact foldl_invariant (buildStep g req (normalizeSettings req.settings))
          (fun st => ∀ tg ∈ st.tagged, tg.action.reason ≠ str "llm")
          (fun st x h => buildStep_preserves_reason g req (normalizeSettings req.settings)
            herr st x h)
          pairs (stInit mem rng2) (by intro tg htg; simp [stInit] at htg)
    exact hreason tg htg
  · intro hatt
    rcases PlanTagged_output g mem enum rng req with
      ⟨-, -, ha, -, -⟩ | ⟨sel, rng2, -, -, ha, hu, hs⟩ | ⟨pairs, rng2, -, -, ha, hu, hs⟩
    · rw [ha] at hatt
      exact absurd hatt (by decide)
    · right
      rw [hs, ← ha, hatt]
      have hu2 : (smallSt g req (normalizeSettings req.settings) mem rng2 sel).used = false := by
        rw [← hu]
        exact hused
      rw [hu2]
      rfl
    · left
      rw [hs, ← ha, hatt]
      have hu2 : (repliesSt g req (normalizeSettings req.settings) mem rng2 pairs).used = false := by
        rw [← hu]
        exact hused
      rw [hu2]
      rfl
  · intro hstrat
    exact absurd ((hiff g).mp hstrat) (by rw [hused]; decide)

def errGen : Generator := ⟨true, fun _ => none⟩

/-- C8 witness: the fallback theorem applied to an enabled generator that
always errors, on the concrete request `reqC1`; that run's strategy indeed
evaluates to "heuristics_fallback". -/
theorem c8_error_generator_fallback_witness :
    ((PlanTagged errGen emptyMem [topicGreeting, topicEvent] rngZero reqC1).att = true →
      ((PlanTagged errGen emptyMem [topicGreeting, topicEvent] rngZero
          reqC1).response.debug.chosenStrategy = str "heuristics" ++ str "_fallback" ∨
       (PlanTagged errGen emptyMem [topicGreeting, topicEvent] rngZero
          reqC1).response.debug.chosenStrategy = str "small_talk" ++ str "_fallback")) ∧
    (PlanTagged errGen emptyMem [topicGreeting, topicEvent] rngZero
        reqC1).response.debug.chosenStrategy ≠ str "llm" ∧
    (PlanTagged errGen emptyMem [topicGreeting, topicEvent] rngZero
        reqC1).response.debug.chosenStrategy = str "heuristics" ++ str "_fallback" := by
  have h := c8_error_generator_fallback errGen emptyMem [topicGreeting, topicEvent]
    rngZero reqC1 (fun _ => rfl)
  exact ⟨h.2.1, h.2.2.1, by decide⟩

/- ===================================================================
   C9: the memory frame property
   =================================================================== -/

/-- Whether a tagged action's remembered key is exactly (s, b, t). -/
def keyMatches (req : PlanRequest) (s b t : Str) (tg : TaggedAction) : Bool :=
  decide (s = orDefaultServer req.server.serverID ∧ b = tg.bot.botID ∧ t = tg.memTopic)

/-- The frame invariant carried through both loops: the memory equals the
initial memory overridden with the request time exactly at the keys of the
tagged actions accumulated so far. -/
def memInv (mem0 : Mem) (req : PlanRequest) (st : BuildSt) : Prop :=
  ∀ s b t, st.mem s b t =
    if st.tagged.any (keyMatches req s b t) then some req.timeMS else mem0 s b t

lemma buildStep_preserves_memInv (g : Generator) (req : PlanRequest)
    (settings : PlanSettings) (mem0 : Mem) (st : BuildSt) (pair : Str × BotProfile)
    (h : memInv mem0 req st) : memInv mem0 req (buildStep g req settings st pair) := by
  intro s b t
  rcases buildStep_cases g req settings st pair with
    ⟨htag, hmem⟩ | ⟨rng1, m, reason, a, u, delay, hgm, hm, htag, hmem⟩
  · rw [hmem, htag]
    exact h s b t
  · rw [hmem, htag]
    unfold rememberMem
    by_cases hkey : s = orDefaultServer req.server.serverID ∧ b = pair.2.botID ∧ t = pair.1
    · rw [if_pos hkey, List.any_append]
      have hone : keyMatches req s b t
          (⟨pair.1, pair.1, pair.2, ⟨pair.2.botID, delay, m, str "PUBLIC", reason⟩⟩ :
            TaggedAction) = true := by
        simp only [keyMatches, decide_eq_true_eq]
        exact hkey
      simp [hone]
    · rw [if_neg hkey, h s b t, List.any_append]
      have hnew : keyMatches req s b t
          (⟨pair.1, pair.1, pair.2, ⟨pair.2.botID, delay, m, str "PUBLIC", reason⟩⟩ :
            TaggedAction) = false := by
        simp only [keyMatches, decide_eq_false_iff_not]
        exact hkey
      simp [hnew]

lemma smallTalkStep_preserves_memInv (g : Generator) (req : PlanRequest)
    (settings : PlanSettings) (mem0 : Mem) (st : BuildSt) (bot : BotProfile)
    (h : memInv mem0 req st) : memInv mem0 req (smallTalkStep g req settings st bot) := by
  intro s b t
  rcases smallTalkStep_cases g req settings st bot with
    ⟨htag, hmem⟩ | ⟨rng1, m, reason, a, u, delay, hgm, hm, htag, hmem⟩
  · rw [hmem, htag]
    exact h s b t
  · rw [hmem, htag]
    unfold rememberMem
    by_cases hkey : s = orDefaultServer req.server.serverID ∧ b = bot.botID ∧ t = str "small_talk"
    · rw [if_pos hkey, List.any_append]
      have hone : keyMatches req s b t
          (⟨[], str "small_talk", bot, ⟨bot.botID, delay, m, str "PUBLIC", reason⟩⟩ :
            TaggedAction) = true := by
        simp only [keyMatches, decide_eq_true_eq]
        exact hkey
      simp [hone]
    · rw [if_neg hkey, h s b t, List.any_append]
      have hnew : keyMatches req s b t
          (⟨[], str "small_talk", bot, ⟨bot.botID, delay, m, str "PUBLIC", reason⟩⟩ :
            TaggedAction) = false := by
        simp only [keyMatches, decide_eq_false_iff_not]
        exact hkey
      simp [hnew]

/-- C9: the anti-spam memory after a `Plan` call is the old memory
overridden with the request's time-ms at exactly the (server-or-default,
bot, remembered-topic) keys of the actions actually appended — pseudo-topic
"small_talk" in the small-talk branch — and a call that returns zero
actions leaves every key unchanged. -/
theorem c9_memory_frame (g : Generator) (mem : Mem) (enum : List Str) (rng : Rng)
    (req : PlanRequest) (s b t : Str) :
    ((PlanTagged g mem enum rng req).mem s b t =
      if (PlanTagged g mem enum rng req).tagged.any (keyMatches req s b t)
      then some req.timeMS else mem s b t) ∧
    ((PlanTagged g mem enum rng req).response.actions = [] →
      (PlanTagged g mem enum rng req).mem s b t = mem s b t) := by
  have hmain : (PlanTagged g mem enum rng req).mem s b t =
      if (PlanTagged g mem enum rng req).tagged.any (keyMatches req s b t)
      then some req.timeMS else mem s b t := by
    rcases PlanTagged_output g mem enum rng req with
      ⟨htag, hmem, -, -, -⟩ | ⟨sel, rng2, htag, hmem, -, -, -⟩ | ⟨pairs, rng2, htag, hmem, -, -, -⟩
    · rw [hmem, htag]
      simp
    · have hinv : memInv mem req (smallSt g req (normalizeSettings req.settings) mem rng2 sel) :=
        foldl_invariant (smallTalkStep g req (normalizeSettings req.settings))
          (memInv mem req)
          (fun st x h => smallTalkStep_preserves_memInv g req (normalizeSettings req.settings)
            mem st x h)
          sel (stInit mem rng2) (by intro s' b' t'; simp [stInit])
      rw [hmem, htag]
      exact hinv s b t
    · have hinv : memInv mem req (repliesSt g req (normalizeSettings req.settings) mem rng2 pairs) :=
        foldl_invariant (buildStep g req (normalizeSettings req.settings))
          (memInv mem req)
          (fun st x h => buildStep_preserves_memInv g req (normalizeSettings req.settings)
            mem st x h)
          pairs (stInit mem rng2) (by intro s' b' t'; simp [stInit])
      rw [hmem, htag]
      exact hinv s b t
  refine ⟨hmain, ?_⟩
  intro hact
  rw [PlanTagged_actions] at hact
  have htag : (PlanTagged g mem enum rng req).tagged = [] := List.map_eq_nil_iff.mp hact
  rw [hmain, htag]
  simp

/-- C9 witness: the frame theorem applied to the concrete run of `reqC1`,
whose actions cover greeting and event — the greeting key is stamped with
the request time and an unemitted key stays untouched. -/
theorem c9_memory_frame_witness :
    (PlanTagged noopLLM emptyMem [topicGreeting, topicEvent] rngZero reqC1).mem
        (str "srv") (str "b1") topicGreeting = some 1000 ∧
    (PlanTagged noopLLM emptyMem [topicGreeting, topicEvent] rngZero reqC1).mem
        (str "srv") (str "b1") topicHelp = none := by
  have h1 := (c9_memory_frame noopLLM emptyMem [topicGreeting, topicEvent] rngZero reqC1
    (str "srv") (str "b1") topicGreeting).1
  have h2 := (c9_memory_frame noopLLM emptyMem [topicGreeting, topicEvent] rngZero reqC1
    (str "srv") (str "b1") topicHelp).1
  exact ⟨h1.trans (by decide), h2.trans (by decide)⟩

/- ===================================================================
   C7: forbidden output after normalization
   =================================================================== -/

def rawC7 : Str := str "Kuba: Kuba: hej"
def nameC7 : Str := str "Kuba"
def promptC7 : Str := str "=== OUTPUT ==="

/-- A delegating generator backed by `Client.Generate`'s postprocessing of
the fixed raw model output `rawC7`. -/
def genC7 : Generator := ⟨true, fun r => clientPostprocess promptC7 rawC7 r.bot.name⟩

def botK : BotProfile := ⟨str "bk", str "Kuba", true, 0, ⟨str "pl", [], [], [], []⟩⟩

/-- C7 counterexample: for the raw output "Kuba: Kuba: hej" and bot name
"Kuba" the normalized line "Kuba: hej" still carries a raw self-name
prefix, yet the delegation result is not treated as a failure: the
sanitizer replaces it by the silence sentinel, `Generate` returns that
sentinel successfully, and `generateMessage` reports a successful
delegation (reason "llm") instead of falling back to the heuristic
generator. -/
theorem c7_forbidden_output_counterexample :
    isForbiddenOutput (normalizedCore rawC7 nameC7) nameC7 = true ∧
    normalizedCore rawC7 nameC7 = str "Kuba: hej" ∧
    clientPostprocess promptC7 rawC7 nameC7 = some silenceToken ∧
    (generateMessage genC7 reqC1 [] botK rngZero).1 =
      (silenceToken, str "llm", true, true) ∧
    ((generateMessage genC7 reqC1 [] botK rngZero).1).2.1 ≠
      ((generateResponse [] botK rngZero).1).2 := by
  refine ⟨by decide, by decide, by decide, by decide, by decide⟩

/-- C7 (amended): when the output still contains a quote character, a bot
marker, or a raw self-name prefix after normalization, the whole result is
replaced by the silence sentinel `__SILENCE__`; the sentinel is then a
successful, non-empty `Generate` result, which `generateMessage` returns
with reason "llm" — the heuristic generator is not invoked for that
(topic, bot) pair. -/
theorem c7_forbidden_output_amended :
    (∀ raw name : Str, isForbiddenOutput (normalizedCore raw name) name = true →
      normalizeLLMOutput raw name = silenceToken) ∧
    (∀ (g : Generator) (req : PlanRequest) (topic : Str) (bot : BotProfile) (rng : Rng)
        (m : Str),
      shouldAvoidTopic topic bot.persona.avoidTopics = false →
      g.enabled = true →
      g.generate ⟨req.server, bot, topic, recentChat req.chat 6⟩ = some m →
      m ≠ [] →
      generateMessage g req topic bot rng = ((m, str "llm", true, true), rng)) := by
  constructor
  · intro raw name hforb
    by_cases h0 : firstNonEmptyLine raw = []
    · simp [normalizeLLMOutput, h0]
    · by_cases h1 : equalFold (trimSpace (firstNonEmptyLine raw)) silenceToken = true
      · simp [normalizeLLMOutput, h0, h1]
      · set L := trimSpace
          (stripSelfName (stripQuotes (stripBotMarkers (firstNonEmptyLine raw))) name)
          with hLdef
        have hcore : normalizedCore raw name =
            if L.length > llmMaxRunes then trimSpace (L.take llmMaxRunes) else L := rfl
        by_cases h2 : L = []
        · simp [normalizeLLMOutput, h0, h1, ← hLdef, h2]
        · by_cases h3 : L.length > llmMaxRunes
          · rw [hcore, if_pos h3] at hforb
            by_cases h4 : trimSpace (L.take llmMaxRunes) = []
            · simp [normalizeLLMOutput, h0, h1, ← hLdef, h2, h3, h4]
            · simp [normalizeLLMOutput, h0, h1, ← hLdef, h2, h3, h4, hforb]
          · rw [hcore, if_neg h3] at hforb
            simp [normalizeLLMOutput, h0, h1, ← hLdef, h2, h3, hforb]
  · intro g req topic bot rng m hav hen hgen hm
    unfold generateMessage
    simp only [hav, Bool.false_eq_true, if_false, hen, if_true, hgen]
    simp [hm]

/-- C7 witness: the amended theorem applied to the concrete forbidden raw
output "Kuba: Kuba: hej" and to the concrete generator `genC7`. -/
theorem c7_forbidden_output_amended_witness :
    normalizeLLMOutput rawC7 nameC7 = silenceToken ∧
    generateMessage genC7 reqC1 [] botK rngZero =
      ((silenceToken, str "llm", true, true), rngZero) := by
  have h := c7_forbidden_output_amended
  refine ⟨h.1 rawC7 nameC7 (by decide), ?_⟩
  have h2 := h.2 genC7 reqC1 [] botK rngZero silenceToken (by decide) (by decide)
    (by decide) (by decide)
  exact h2
